import Mathlib

/-!
gin-admin: request context and demo business logic

A shallow embedding of `src/web/context/context.go` (pagination parameters and
response methods of the request context) and of `src/bll/b_demo.go` (the CRUD
service over the persistence collaborator `model.IDemo`), followed by the
properties proved about them.
-/

set_option autoImplicit false

/-! ## Go values shared by the packages -/

/-- Go `error` values the embedded code returns or passes through: the sentinel
`util.ErrNotFound`, `errors.New(msg)`, and an error produced by a collaborator
(identified by its text). A nil error is `none : Option GoError`. -/
inductive GoError where
  | ErrNotFound
  | New (msg : String)
  | external (text : String)
  deriving DecidableEq, Repr

/-- Dynamic values stored in a `map[string]interface{}`. -/
inductive Value where
  | int (i : Int)
  | str (s : String)
  deriving DecidableEq, Repr

/-- Go `map[string]interface{}` as an association list. -/
abbrev FieldMap := List (String × Value)

/-- Go `m[k]` with presence: the value bound to `k`, if any. -/
def FieldMap.get (m : FieldMap) (k : String) : Option Value :=
  List.lookup k m

/-- Go `delete(m, k)`. -/
def FieldMap.delete (m : FieldMap) (k : String) : FieldMap :=
  m.filter (fun kv => kv.1 != k)

/-! ## Package `schema` -/

namespace schema

/-- Modelled from the spec: the entity `schema.Demo`, whose declaration is
absent. It carries the attributes the data model names (internal identifier,
record identifier, business code, status, creation timestamp, soft-delete
marker) and the two further attributes the update whitelist excludes (creator,
updated timestamp). -/
structure Demo where
  ID : Int
  RecordID : String
  Code : String
  Status : Int
  Creator : String
  Created : Int
  Updated : Int
  Deleted : Int
  deriving DecidableEq, Repr

end schema

/-! ## Package `util` -/

namespace util

/-- Decimal value of one digit character. -/
def digitVal (c : Char) : Nat := c.toNat - 48

/-- Modelled from the spec: `util.S(v).Uint()`, the string-to-unsigned
conversion, whose source is absent. A non-empty run of decimal digits is read
as its decimal value; every other text (empty, signed, non-numeric) is
unparsable and gives 0. The embedded functions never use it directly: they take
the conversion as a parameter, and this one instantiates it on concrete
requests. -/
def S.Uint (v : String) : Nat :=
  if v.toList ≠ [] ∧ v.toList.all Char.isDigit = true then
    v.toList.foldl (fun n c => 10 * n + digitVal c) 0
  else 0

/-- The sentinel `util.ErrNotFound`. -/
def ErrNotFound : GoError := GoError.ErrNotFound

/-- Modelled from the spec: `util.StructToMap`, whose source is absent, on a
`schema.Demo`: one entry per attribute, keyed by the attribute's field name
(the names `b_demo.go` uses for them). -/
def StructToMap (item : schema.Demo) : FieldMap :=
  [("id", Value.int item.ID),
   ("record_id", Value.str item.RecordID),
   ("code", Value.str item.Code),
   ("status", Value.int item.Status),
   ("creator", Value.str item.Creator),
   ("created", Value.int item.Created),
   ("updated", Value.int item.Updated),
   ("deleted", Value.int item.Deleted)]

end util


/-! ## Package `errors` -/

namespace errors

/-- Go `errors.New(message)`. -/
def New (message : String) : GoError := GoError.New message

end errors

/-! ## Package `model` -/

namespace model

/-- One call issued to the persistence collaborator, with its arguments. -/
inductive Call where
  | Get (recordID : String)
  | CheckCode (code : String)
  | Check (recordID : String)
  | Create (item : schema.Demo)
  | Update (recordID : String) (info : FieldMap)
  | Delete (recordID : String)
  deriving DecidableEq, Repr

/-- Modelled from the spec: the persistence interface `model.IDemo`, whose
declaration is absent, with the methods `b_demo.go` calls on it, over a store
of type `σ`. A Go result pair `(value, error)` is a pair whose second component
is the error (`none` for nil). The three queries read the store; the three
commands return the store they leave behind. -/
structure IDemo (σ : Type) where
  Get : σ → String → Option schema.Demo × Option GoError
  CheckCode : σ → String → Bool × Option GoError
  Check : σ → String → Bool × Option GoError
  Create : σ → schema.Demo → σ × Option GoError
  Update : σ → String → FieldMap → σ × Option GoError
  Delete : σ → String → σ × Option GoError

/-- What a service operation runs against: the store behind the persistence
collaborator and the record of the calls issued to it so far, oldest first. -/
structure World (σ : Type) where
  store : σ
  calls : List Call

/-- Issue `DemoModel.Get(ctx, recordID)`. -/
def IDemo.callGet {σ : Type} (m : IDemo σ) (recordID : String) (w : World σ) :
    (Option schema.Demo × Option GoError) × World σ :=
  (m.Get w.store recordID, { w with calls := w.calls ++ [Call.Get recordID] })

/-- Issue `DemoModel.CheckCode(ctx, code)`. -/
def IDemo.callCheckCode {σ : Type} (m : IDemo σ) (code : String) (w : World σ) :
    (Bool × Option GoError) × World σ :=
  (m.CheckCode w.store code, { w with calls := w.calls ++ [Call.CheckCode code] })

/-- Issue `DemoModel.Check(ctx, recordID)`. -/
def IDemo.callCheck {σ : Type} (m : IDemo σ) (recordID : String) (w : World σ) :
    (Bool × Option GoError) × World σ :=
  (m.Check w.store recordID, { w with calls := w.calls ++ [Call.Check recordID] })

/-- Issue `DemoModel.Create(ctx, item)`. -/
def IDemo.callCreate {σ : Type} (m : IDemo σ) (item : schema.Demo) (w : World σ) :
    Option GoError × World σ :=
  ((m.Create w.store item).2,
    { store := (m.Create w.store item).1, calls := w.calls ++ [Call.Create item] })

/-- Issue `DemoModel.Update(ctx, recordID, info)`. -/
def IDemo.callUpdate {σ : Type} (m : IDemo σ) (recordID : String) (info : FieldMap)
    (w : World σ) : Option GoError × World σ :=
  ((m.Update w.store recordID info).2,
    { store := (m.Update w.store recordID info).1,
      calls := w.calls ++ [Call.Update recordID info] })

/-- Issue `DemoModel.Delete(ctx, recordID)`. -/
def IDemo.callDelete {σ : Type} (m : IDemo σ) (recordID : String) (w : World σ) :
    Option GoError × World σ :=
  ((m.Delete w.store recordID).2,
    { store := (m.Delete w.store recordID).1, calls := w.calls ++ [Call.Delete recordID] })

end model

/-! ## Package `bll` -/

namespace bll

open model

/-- Go `type Demo struct { DemoModel model.IDemo }`. -/
structure Demo (σ : Type) where
  DemoModel : model.IDemo σ

/-- Go `func (a *Demo) Get(ctx, recordID) (*schema.Demo, error)`. -/
def Demo.Get {σ : Type} (a : Demo σ) (recordID : String) (w : World σ) :
    (Option schema.Demo × Option GoError) × World σ :=
  let r := a.DemoModel.callGet recordID w
  let item := r.1.1
  let err := r.1.2
  let w := r.2
  if err ≠ none then ((none, err), w)
  else if item = none then ((none, some util.ErrNotFound), w)
  else ((item, none), w)

/-- Go `func (a *Demo) Create(ctx, item *schema.Demo) error`. `MustUUID` is the
value `util.MustUUID()` returns at this call and `Now` the value of
`time.Now().Unix()`. -/
def Demo.Create {σ : Type} (a : Demo σ) (MustUUID : String) (Now : Int)
    (item : schema.Demo) (w : World σ) : Option GoError × World σ :=
  let r := a.DemoModel.callCheckCode item.Code w
  let exists_ := r.1.1
  let err := r.1.2
  let w := r.2
  if err ≠ none then (err, w)
  else if exists_ then (some (errors.New "编号已经存在"), w)
  else
    let item := { item with ID := 0 }
    let item := { item with RecordID := MustUUID }
    let item := { item with Created := Now }
    let item := { item with Deleted := 0 }
    a.DemoModel.callCreate item w

/-- The body of `Update` after the checks: build `info` from the entity, drop
the six protected keys, hand it to persistence. -/
def Demo.updateTail {σ : Type} (a : Demo σ) (recordID : String) (item : schema.Demo)
    (w : World σ) : Option GoError × World σ :=
  let info := util.StructToMap item
  let info := info.delete "id"
  let info := info.delete "record_id"
  let info := info.delete "creator"
  let info := info.delete "created"
  let info := info.delete "updated"
  let info := info.delete "deleted"
  a.DemoModel.callUpdate recordID info w

/-- Go `func (a *Demo) Update(ctx, recordID string, item *schema.Demo) error`. -/
def Demo.Update {σ : Type} (a : Demo σ) (recordID : String) (item : schema.Demo)
    (w : World σ) : Option GoError × World σ :=
  let r := a.DemoModel.callGet recordID w
  let err := r.1.2
  let w := r.2
  if err ≠ none then (err, w)
  else
    match r.1.1 with
    | none => (some util.ErrNotFound, w)
    | some oldItem =>
      if oldItem.Code ≠ item.Code then
        let r := a.DemoModel.callCheckCode item.Code w
        let exists_ := r.1.1
        let err := r.1.2
        let w := r.2
        if err ≠ none then (err, w)
        else if exists_ then (some (errors.New "编号已经存在"), w)
        else a.updateTail recordID item w
      else a.updateTail recordID item w

/-- Go `func (a *Demo) Delete(ctx, recordID string) error`. -/
def Demo.Delete {σ : Type} (a : Demo σ) (recordID : String) (w : World σ) :
    Option GoError × World σ :=
  let r := a.DemoModel.callCheck recordID w
  let exists_ := r.1.1
  let err := r.1.2
  let w := r.2
  if err ≠ none then (err, w)
  else if !exists_ then (some util.ErrNotFound, w)
  else a.DemoModel.callDelete recordID w

/-- Go `func (a *Demo) UpdateStatus(ctx, recordID string, status int) error`. -/
def Demo.UpdateStatus {σ : Type} (a : Demo σ) (recordID : String) (status : Int)
    (w : World σ) : Option GoError × World σ :=
  let r := a.DemoModel.callCheck recordID w
  let exists_ := r.1.1
  let err := r.1.2
  let w := r.2
  if err ≠ none then (err, w)
  else if !exists_ then (some util.ErrNotFound, w)
  else
    let info : FieldMap := [("status", Value.int status)]
    a.DemoModel.callUpdate recordID info w

/-- One call of a service operation with its arguments. For `Create`, `MustUUID`
and `Now` are the generated record identifier and the clock reading of that
call. -/
inductive Op where
  | Create (MustUUID : String) (Now : Int) (item : schema.Demo)
  | Update (recordID : String) (item : schema.Demo)
  | UpdateStatus (recordID : String) (status : Int)
  | Delete (recordID : String)

/-- Run one service operation. -/
def Demo.step {σ : Type} (a : Demo σ) (op : Op) (w : World σ) : Option GoError × World σ :=
  match op with
  | Op.Create u t item => a.Create u t item w
  | Op.Update recordID item => a.Update recordID item w
  | Op.UpdateStatus recordID status => a.UpdateStatus recordID status w
  | Op.Delete recordID => a.Delete recordID w

/-- Run service operations one after the other, each on the world the previous
one left, whatever error it returned. -/
def Demo.run {σ : Type} (a : Demo σ) : List Op → World σ → World σ
  | [], w => w
  | op :: rest, w => a.run rest (a.step op w).2

end bll

/-! ## Package `context` -/

namespace context

/-- The part of `*gin.Context` the pagination code reads: the decoded query
string, as key/value pairs in order of appearance. -/
structure GinContext where
  query : List (String × String)
  deriving Repr, DecidableEq

/-- Go `gin.Context.Query`: the first value of `key`, the empty string when the
key is absent. -/
def GinContext.Query (c : GinContext) (key : String) : String :=
  match c.query.find? (fun kv => kv.1 == key) with
  | some kv => kv.2
  | none => ""

/-- Go `type Context struct { gctx *gin.Context }`. -/
structure Context where
  gctx : GinContext
  deriving Repr, DecidableEq

/-- Go `func (a *Context) Query(key string) string`. -/
def Context.Query (a : Context) (key : String) : String :=
  a.gctx.Query key

/-- Go `func (a *Context) GetPageIndex() uint`; `Uint` stands for the conversion
`util.S(v).Uint()`. -/
def Context.GetPageIndex (Uint : String → Nat) (a : Context) : Nat :=
  let v := a.Query "current"
  if v ≠ "" then
    let iv := Uint v
    if iv > 0 then iv else 1
  else 1

/-- Go `func (a *Context) GetPageSize() uint`; `Uint` stands for the conversion
`util.S(v).Uint()`. -/
def Context.GetPageSize (Uint : String → Nat) (a : Context) : Nat :=
  let v := a.Query "pageSize"
  if v ≠ "" then
    let iv := Uint v
    if iv > 0 then
      let iv := if iv > 50 then 50 else iv
      iv
    else 10
  else 10

end context

/-! ## A reference persistence: the in-memory store -/

namespace memstore

open model

/-- Modelled from the spec: the state behind the persistence collaborator, whose
source is absent: the stored entities, oldest first. Nothing is ever removed
physically. -/
abbrev Store := List schema.Demo

/-- An entity is live when its soft-delete marker is 0. -/
def live (e : schema.Demo) : Bool := e.Deleted == 0

/-- The entity a record identifier designates is a live one carrying it. -/
def identifies (recordID : String) (e : schema.Demo) : Bool :=
  live e && e.RecordID == recordID

/-- The record `get(recordID)` finds: the first live entity carrying the
identifier. -/
def find (s : Store) (recordID : String) : Option schema.Demo :=
  List.find? (identifies recordID) s

/-- Whether a live entity carries the business code. -/
def codeExists (s : Store) (code : String) : Bool :=
  s.any (fun e => live e && e.Code == code)

/-- Write one entry of a field-change map into an entity; an entry whose key
names no attribute, or whose value has the wrong kind, changes nothing. -/
def setField (e : schema.Demo) (kv : String × Value) : schema.Demo :=
  match kv.2 with
  | Value.int i =>
    if kv.1 = "id" then { e with ID := i }
    else if kv.1 = "status" then { e with Status := i }
    else if kv.1 = "created" then { e with Created := i }
    else if kv.1 = "updated" then { e with Updated := i }
    else if kv.1 = "deleted" then { e with Deleted := i }
    else e
  | Value.str t =>
    if kv.1 = "record_id" then { e with RecordID := t }
    else if kv.1 = "code" then { e with Code := t }
    else if kv.1 = "creator" then { e with Creator := t }
    else e

/-- Apply exactly the supplied field-change map to an entity. -/
def applyFields (info : FieldMap) (e : schema.Demo) : schema.Demo :=
  info.foldl setField e

/-- Replace the first entity satisfying `p` by its image under `f`. -/
def updateFirst (p : schema.Demo → Bool) (f : schema.Demo → schema.Demo) : Store → Store
  | [] => []
  | e :: es => if p e then f e :: es else e :: updateFirst p f es

/-- Modelled from the spec: a persistence that honours the interface of §4.3
over the in-memory store. `get` returns only live entities, `checkCodeExists`
is true exactly when a live entity has the code, `checkExists` is true exactly
when `get` finds a record, `create` stores the entity under a storage-assigned
non-zero internal identifier, `update` applies exactly the supplied field map
to the identified record, `delete` sets the identified record's soft-delete
marker. `fault` decides which calls fail: a failing call returns that error and
leaves the store as it was. -/
def IDemo (fault : Call → Option GoError) : model.IDemo Store where
  Get s recordID :=
    match fault (Call.Get recordID) with
    | some e => (none, some e)
    | none => (find s recordID, none)
  CheckCode s code :=
    match fault (Call.CheckCode code) with
    | some e => (false, some e)
    | none => (codeExists s code, none)
  Check s recordID :=
    match fault (Call.Check recordID) with
    | some e => (false, some e)
    | none => ((find s recordID).isSome, none)
  Create s item :=
    match fault (Call.Create item) with
    | some e => (s, some e)
    | none => (s ++ [{ item with ID := (s.length : Int) + 1 }], none)
  Update s recordID info :=
    match fault (Call.Update recordID info) with
    | some e => (s, some e)
    | none => (updateFirst (identifies recordID) (applyFields info) s, none)
  Delete s recordID :=
    match fault (Call.Delete recordID) with
    | some e => (s, some e)
    | none => (updateFirst (identifies recordID) (fun e => { e with Deleted := 1 }) s, none)

/-- The persistence in which no call fails. -/
def noFault : Call → Option GoError := fun _ => none

/-- The service wired to the persistence in which no call fails. -/
def service : bll.Demo Store := { DemoModel := IDemo noFault }

/-- A live sample entity with code `A`. -/
def sampleA : schema.Demo :=
  { ID := 1, RecordID := "r1", Code := "A", Status := 1, Creator := "root",
    Created := 100, Updated := 0, Deleted := 0 }

/-- A live sample entity with code `B`. -/
def sampleB : schema.Demo :=
  { ID := 2, RecordID := "r2", Code := "B", Status := 1, Creator := "root",
    Created := 200, Updated := 0, Deleted := 0 }

/-- The business codes of the live entities, in store order. -/
def liveCodes (s : Store) : List String :=
  (s.filter live).map (fun e => e.Code)

/-- The uniqueness invariant of the data model: no two live entities share a
business code. -/
def CodeUnique (s : Store) : Prop := (liveCodes s).Nodup

instance (s : Store) : Decidable (CodeUnique s) :=
  inferInstanceAs (Decidable (liveCodes s).Nodup)

/-- Modelled from the spec: what the service needs from a persistence that
honours the interface of §4.3, seen through the entities `rows s` it holds in
state `s`. A `get` that succeeds with an entity returns the live entity the
identifier designates; a `checkCodeExists` that succeeds is true exactly when a
live entity has the code; each command, whether it reports an error or not,
either leaves the stored entities as they were or has its effect: `create`
stores the entity under some internal identifier, `update` applies exactly the
supplied field map to the designated record, `delete` sets a non-zero
soft-delete marker on the designated record. -/
structure Honours {σ : Type} (m : model.IDemo σ) (rows : σ → Store) : Prop where
  Get_designated : ∀ s recordID item, (m.Get s recordID).2 = none →
    (m.Get s recordID).1 = some item → find (rows s) recordID = some item
  CheckCode_exact : ∀ s code, (m.CheckCode s code).2 = none →
    (m.CheckCode s code).1 = codeExists (rows s) code
  Create_effect : ∀ s item, rows (m.Create s item).1 = rows s ∨
    ∃ id, rows (m.Create s item).1 = rows s ++ [{ item with ID := id }]
  Update_effect : ∀ s recordID info, rows (m.Update s recordID info).1 = rows s ∨
    rows (m.Update s recordID info).1 =
      updateFirst (identifies recordID) (applyFields info) (rows s)
  Delete_effect : ∀ s recordID, rows (m.Delete s recordID).1 = rows s ∨
    ∃ d, d ≠ 0 ∧ rows (m.Delete s recordID).1 =
      updateFirst (identifies recordID) (fun e => { e with Deleted := d }) (rows s)

/-- A failure pattern: the persistence `Create` of an entity with code `E`
fails, every other call succeeds. -/
def sampleFault : Call → Option GoError
  | Call.Create item =>
    if item.Code = "E" then some (GoError.external "connection lost") else none
  | _ => none

/-- A sample run: a create with a taken code, a create with a new code, a rename
onto a taken code, a rename onto a free code, a status change, a create whose
persistence call fails, a delete, and a create reusing the deleted entity's
code. -/
def sampleRun : List bll.Op :=
  [ bll.Op.Create "u3" 300 { sampleA with RecordID := "x" },
    bll.Op.Create "u4" 400 { sampleA with Code := "C" },
    bll.Op.Update "r2" { sampleB with Code := "A" },
    bll.Op.Update "r2" { sampleB with Code := "D" },
    bll.Op.UpdateStatus "r1" 2,
    bll.Op.Create "u5" 500 { sampleA with Code := "E" },
    bll.Op.Delete "r1",
    bll.Op.Create "u6" 600 { sampleB with Code := "A" } ]

end memstore


/-! ## Go library values used by the response methods -/

namespace errors

/-- A frame of a call stack (`errors.Frame`, a program counter). -/
abbrev Frame := Nat

/-- A Go slice of frames (`errors.StackTrace`): `frames` are its elements, and
`spare` the elements of its backing array past its length, so that its
capacity is the length of both together. -/
structure StackTrace where
  frames : List Frame
  spare : List Frame
  deriving DecidableEq, Repr

/-- The length `len(s)`. -/
def StackTrace.len (s : StackTrace) : Nat := s.frames.length

/-- The capacity `cap(s)`. -/
def StackTrace.cap (s : StackTrace) : Nat := s.frames.length + s.spare.length

/-- The slice expression `s[:n]`: Go checks `n` against the capacity of `s`, not
its length, and panics (`none`) when `n` exceeds it. -/
def StackTrace.sliceTo (s : StackTrace) (n : Nat) : Option StackTrace :=
  if n ≤ s.cap then
    some { frames := (s.frames ++ s.spare).take n, spare := (s.frames ++ s.spare).drop n }
  else none

/-- The frames `callers()` records when `errors.Wrap` is called inside a method:
the frame of that method, the frame of its caller, and the frames below. -/
structure Callers where
  top : Frame
  caller : Frame
  below : List Frame
  deriving DecidableEq, Repr

/-- The value `StackTrace()` returns for recorded callers: a slice made with
`make([]Frame, len)`, whose capacity is its length. -/
def Callers.StackTrace (c : Callers) : StackTrace :=
  { frames := c.top :: c.caller :: c.below, spare := [] }

end errors

/-- A non-nil Go `error` value as the response methods can observe it: its text
`Error()`, whether it is the sentinel `util.ErrNotFound` (the comparison
`err == util.ErrNotFound`), and, when its dynamic type has the method
`StackTrace() errors.StackTrace`, the slice that method returns. A nil error is
`none : Option ErrorValue`. -/
structure ErrorValue where
  Error : String
  IsErrNotFound : Bool
  StackTrace : Option errors.StackTrace
  deriving DecidableEq, Repr

namespace errors

/-- Go `errors.Wrap(err, message)` on a non-nil error: a new value whose text is
`message`, the separator `: `, and the text of `err`, and which carries the
callers recorded at the call. -/
def Wrap (err : ErrorValue) (message : String) (callers : Callers) : ErrorValue :=
  { Error := message ++ ": " ++ err.Error,
    IsErrNotFound := false,
    StackTrace := some callers.StackTrace }

end errors

namespace strings

/-- Whether the list `l` begins with `sep`. -/
def startsWith : List Char → List Char → Bool
  | [], _ => true
  | _ :: _, [] => false
  | a :: sep, b :: l => a == b && startsWith sep l

/-- The segments of a text cut at each occurrence of `sep`, scanning from the
left; `skip` counts the characters of an occurrence still to be passed. -/
def splitFrom (sep : List Char) : Nat → List Char → List (List Char)
  | _, [] => [[]]
  | skip + 1, _ :: cs => splitFrom sep skip cs
  | 0, c :: cs =>
    if startsWith sep (c :: cs) then [] :: splitFrom sep (sep.length - 1) cs
    else
      match splitFrom sep 0 cs with
      | seg :: segs => (c :: seg) :: segs
      | [] => [[c]]

/-- Go `strings.Split(s, sep)` for a non-empty separator. -/
def Split (s sep : String) : List String :=
  (splitFrom sep.toList 0 s.toList).map String.mk

end strings

/-! ## Package `context`: response envelopes and response methods -/

namespace context

/-- Modelled from the spec: the error detail of the Error envelope
(`HTTPErrorItem`, declared outside the given source): a message and a numeric
code. -/
structure HTTPErrorItem where
  Message : String
  Code : Int
  deriving DecidableEq, Repr

/-- Modelled from the spec: the pagination block of the List envelope
(`HTTPPagination`, declared outside the given source). -/
structure HTTPPagination where
  Total : Int
  Current : Nat
  PageSize : Nat
  deriving DecidableEq, Repr

/-- A Go value handed to a response method as `interface{}`: the nil interface,
the empty map `gin.H{}`, one of the envelopes of the package (modelled from the
spec: `HTTPError`, `HTTPList`, `HTTPStatus`, declared outside the given
source), or any other value, identified by a number. -/
inductive Payload where
  | nil
  | H
  | HTTPError (Error : HTTPErrorItem)
  | HTTPList (list : Payload) (Pagination : Option HTTPPagination)
  | HTTPStatus (Status : String)
  | other (id : Nat)
  deriving DecidableEq, Repr

/-- Modelled from the spec: the constant `StatusOK` of the Status envelope. -/
def StatusOK : String := "OK"

/-- Modelled from the spec: the request-scoped keys of package `util`
(`util.ContextKeyTraceID`, `util.ContextKeyUserID`, `util.ContextKeyResBody`,
`util.ContextKeyURLMemo`), whose declarations are absent. -/
inductive ContextKey where
  | TraceID
  | UserID
  | ResBody
  | URLMemo
  deriving DecidableEq, Repr

/-- A value stored under a request-scoped key: a string or a byte buffer. -/
inductive KeyValue where
  | str (s : String)
  | bytes (buf : String)
  deriving DecidableEq, Repr

/-- A `context.Context` as built by `NewContext`: the trace and user
identifiers attached to it, if any. -/
structure GoContext where
  traceID : Option String
  userID : Option String
  deriving DecidableEq, Repr

/-- The value of a log field: a text, or the `%+v` rendering of a slice of
frames. -/
inductive FieldValue where
  | text (s : String)
  | frames (fs : List errors.Frame)
  deriving DecidableEq, Repr

/-- Modelled from the spec: a log entry under construction (`logger.System(ctx)`
and `WithField`, whose source is absent): it is tagged with the identifiers of
the context and carries the attached fields. -/
structure Entry where
  ctx : GoContext
  fields : List (String × FieldValue)
  deriving DecidableEq, Repr

/-- The severity of an emitted log entry. -/
inductive Level where
  | Warn
  | Error
  deriving DecidableEq, Repr

/-- A log entry handed to the log sink. -/
structure LogEntry where
  level : Level
  entry : Entry
  message : String
  deriving DecidableEq, Repr

/-- One effect of a response method, in the order they happen: `ResJSON` was
entered with these arguments, an entry was logged, `gctx.Data` wrote a
response, `gctx.Abort` was called. -/
inductive Event where
  | ResJSON (status : Int) (v : Payload)
  | Log (e : LogEntry)
  | Data (status : Int) (contentType : String) (body : String)
  | Abort
  deriving DecidableEq, Repr

/-- The mutable side of one request: the key/value bag of the `*gin.Context`
(newest binding first) and the effects so far (oldest first). -/
structure GinState where
  keys : List (ContextKey × KeyValue)
  events : List Event
  deriving DecidableEq, Repr

/-- Go `gin.Context.GetString`: the string stored under the key, the empty
string when the key is unset or holds something else. -/
def GinState.GetString (s : GinState) (key : ContextKey) : String :=
  match s.keys.lookup key with
  | some (KeyValue.str v) => v
  | _ => ""

/-- Go `gin.Context.Set`. -/
def GinState.Set (s : GinState) (key : ContextKey) (v : KeyValue) : GinState :=
  { s with keys := (key, v) :: s.keys }

/-- Record one effect. -/
def GinState.emit (s : GinState) (e : Event) : GinState :=
  { s with events := s.events ++ [e] }

/-- The responses written so far, as `(status, body)`. -/
def GinState.responses (s : GinState) : List (Int × String) :=
  s.events.filterMap (fun e =>
    match e with
    | Event.Data status _ body => some (status, body)
    | _ => none)

/-- The entries logged so far. -/
def GinState.logs (s : GinState) : List LogEntry :=
  s.events.filterMap (fun e =>
    match e with
    | Event.Log l => some l
    | _ => none)

/-- How a call of a response method ends: it returns, leaving a state; it
panics, in a state; or the bound on nested calls is used up. -/
inductive Outcome where
  | done (s : GinState)
  | panicked (s : GinState)
  | outOfFuel
  deriving DecidableEq, Repr

/-- What the response methods take from outside the given source:
`util.JSONMarshal`, as the pair `(buf, err)` it returns, and the callers
`errors.Wrap` records when it is called inside `ResJSON`. -/
structure Env where
  JSONMarshal : Payload → String × Option ErrorValue
  callers : errors.Callers

/-- Go `func (a *Context) GetTraceID() string`. -/
def Context.GetTraceID (_a : Context) (s : GinState) : String :=
  s.GetString ContextKey.TraceID

/-- Go `func (a *Context) GetUserID() string`. -/
def Context.GetUserID (_a : Context) (s : GinState) : String :=
  s.GetString ContextKey.UserID

/-- Go `func (a *Context) SetUserID(userID string)`. -/
def Context.SetUserID (_a : Context) (userID : String) (s : GinState) : GinState :=
  s.Set ContextKey.UserID (KeyValue.str userID)

/-- Go `func (a *Context) NewContext() context.Context`. -/
def Context.NewContext (a : Context) (s : GinState) : GoContext :=
  let parent : GoContext := { traceID := none, userID := none }
  let parent :=
    if a.GetTraceID s ≠ "" then { parent with traceID := some (a.GetTraceID s) } else parent
  let parent :=
    if a.GetUserID s ≠ "" then { parent with userID := some (a.GetUserID s) } else parent
  parent

/-- Modelled from the spec: `logger.System(ctx)`. -/
def System (ctx : GoContext) : Entry := { ctx := ctx, fields := [] }

/-- Modelled from the spec: `(*Entry).WithField(key, value)`. -/
def Entry.WithField (e : Entry) (key : String) (value : FieldValue) : Entry :=
  { e with fields := e.fields ++ [(key, value)] }

/-- Modelled from the spec: `(*Entry).Warnf(format, arg)` with a format that is
`lead` followed by `%s`: the entry is emitted at warning level. -/
def Entry.Warnf (e : Entry) (lead arg : String) (s : GinState) : GinState :=
  s.emit (Event.Log { level := Level.Warn, entry := e, message := lead ++ arg })

/-- Modelled from the spec: `(*Entry).Errorf(format, arg)` with a format that is
`lead` followed by `%s`: the entry is emitted at error level. -/
def Entry.Errorf (e : Entry) (lead arg : String) (s : GinState) : GinState :=
  s.emit (Event.Log { level := Level.Error, entry := e, message := lead ++ arg })

mutual

/-- Go `func (a *Context) ResInternalServerError(err error, code ...int)`. -/
def Context.ResInternalServerError (env : Env) (a : Context) :
    Nat → Option ErrorValue → List Int → GinState → Outcome
  | 0, _, _, _ => Outcome.outOfFuel
  | fuel + 1, err, code, s =>
    let status : Int := 500
    let status : Int :=
      match err with
      | some e => if e.IsErrNotFound then 404 else status
      | none => status
    Context.ResError env a fuel err status code s

/-- Go `func (a *Context) ResError(err error, status int, code ...int)`. -/
def Context.ResError (env : Env) (a : Context) :
    Nat → Option ErrorValue → Int → List Int → GinState → Outcome
  | 0, _, _, _, _ => Outcome.outOfFuel
  | fuel + 1, err, status, code, s =>
    let item : HTTPErrorItem := { Message := "", Code := 0 }
    let item : HTTPErrorItem :=
      match err with
      | some e =>
        match strings.Split e.Error ": " with
        | s0 :: _ => { item with Message := s0 }
        | [] => item
      | none => item
    let logged : Option (HTTPErrorItem × GinState) :=
      if status ≥ 400 ∧ status < 500 then
        let item : HTTPErrorItem :=
          if item.Message = "" then { item with Message := "请求发生错误" } else item
        match err with
        | some e =>
          some (item,
            ((System (a.NewContext s)).WithField "error" (FieldValue.text e.Error)).Warnf
              "[请求错误] " item.Message s)
        | none => some (item, s)
      else if status ≥ 500 ∧ status < 600 then
        let item : HTTPErrorItem :=
          if item.Message = "" then { item with Message := "服务器发生错误" } else item
        match err with
        | some e =>
          let entry := System (a.NewContext s)
          match e.StackTrace with
          | some stack =>
            match stack.sliceTo 2 with
            | some top =>
              some (item,
                (entry.WithField "error" (FieldValue.frames top.frames)).Errorf
                  "[服务器错误] " e.Error s)
            | none => none
          | none => some (item, entry.Errorf "[服务器错误] " e.Error s)
        | none => some (item, s)
      else some (item, s)
    match logged with
    | none => Outcome.panicked s
    | some (item, s) =>
      let item : HTTPErrorItem :=
        match code with
        | c :: _ => { item with Code := c }
        | [] => item
      Context.ResJSON env a fuel status (Payload.HTTPError item) s

/-- Go `func (a *Context) ResJSON(status int, v interface{})`. -/
def Context.ResJSON (env : Env) (a : Context) :
    Nat → Int → Payload → GinState → Outcome
  | 0, _, _, _ => Outcome.outOfFuel
  | fuel + 1, status, v, s =>
    let s := s.emit (Event.ResJSON status v)
    let buf := (env.JSONMarshal v).1
    match (env.JSONMarshal v).2 with
    | some err =>
      Context.ResInternalServerError env a fuel
        (some (errors.Wrap err "JSON序列化发生错误" env.callers)) [] s
    | none =>
      let s := s.Set ContextKey.ResBody (KeyValue.bytes buf)
      let s := s.emit (Event.Data status "application/json; charset=utf-8" buf)
      let s := s.emit Event.Abort
      Outcome.done s

end

/-- Go `func (a *Context) ResBadRequest(err error, code ...int)`. -/
def Context.ResBadRequest (env : Env) (a : Context) (fuel : Nat) (err : Option ErrorValue)
    (code : List Int) (s : GinState) : Outcome :=
  a.ResError env fuel err 400 code s

/-- Go `func (a *Context) ResSuccess(v interface{})`. -/
def Context.ResSuccess (env : Env) (a : Context) (fuel : Nat) (v : Payload)
    (s : GinState) : Outcome :=
  let v := if v = Payload.nil then Payload.H else v
  a.ResJSON env fuel 200 v s

/-- Go `func (a *Context) ResPage(total int64, v interface{})`; `Uint` stands for
the conversion `util.S(v).Uint()` used by the pagination parameters. -/
def Context.ResPage (env : Env) (Uint : String → Nat) (a : Context) (fuel : Nat)
    (total : Int) (v : Payload) (s : GinState) : Outcome :=
  a.ResSuccess env fuel
    (Payload.HTTPList v
      (some { Total := total, Current := a.GetPageIndex Uint, PageSize := a.GetPageSize Uint }))
    s

/-- Go `func (a *Context) ResList(v interface{})`. -/
def Context.ResList (env : Env) (a : Context) (fuel : Nat) (v : Payload)
    (s : GinState) : Outcome :=
  a.ResSuccess env fuel (Payload.HTTPList v none) s

/-- Go `func (a *Context) ResOK()`. -/
def Context.ResOK (env : Env) (a : Context) (fuel : Nat) (s : GinState) : Outcome :=
  a.ResSuccess env fuel (Payload.HTTPStatus StatusOK) s

/-- Modelled from the spec: a serializer producing the envelope shapes of §6,
standing for `util.JSONMarshal` on concrete requests. Texts are written
between quotes as they are; the value `other 0` stands for a value JSON cannot
represent (a channel), on which the serializer fails. -/
def sampleJSON : Payload → Option String
  | Payload.nil => some "null"
  | Payload.H => some "\x7b\x7d"
  | Payload.HTTPError item =>
    some ("\x7b\"error\":\x7b\"message\":\"" ++ item.Message ++ "\",\"code\":" ++
      toString item.Code ++ "\x7d\x7d")
  | Payload.HTTPList list none =>
    match sampleJSON list with
    | some l => some ("\x7b\"list\":" ++ l ++ "\x7d")
    | none => none
  | Payload.HTTPList list (some pg) =>
    match sampleJSON list with
    | some l =>
      some ("\x7b\"list\":" ++ l ++ ",\"pagination\":\x7b\"total\":" ++ toString pg.Total ++
        ",\"current\":" ++ toString pg.Current ++ ",\"pageSize\":" ++ toString pg.PageSize ++
        "\x7d\x7d")
    | none => none
  | Payload.HTTPStatus st => some ("\x7b\"status\":\"" ++ st ++ "\"\x7d")
  | Payload.other 0 => none
  | Payload.other (n + 1) => some (toString (n + 1))

/-- The pair `(buf, err)` of the sample serializer. -/
def sampleMarshal (v : Payload) : String × Option ErrorValue :=
  match sampleJSON v with
  | some buf => (buf, none)
  | none =>
    ("", some { Error := "json: unsupported type: chan int", IsErrNotFound := false,
                StackTrace := none })

/-- A sample environment: the sample serializer, and three recorded callers. -/
def sampleEnv : Env :=
  { JSONMarshal := sampleMarshal, callers := { top := 11, caller := 12, below := [13] } }

/-- A sample request context without query parameters. -/
def sampleContext : Context := { gctx := { query := [] } }

/-- A sample request `?current=3&pageSize=75`. -/
def samplePaged : Context :=
  { gctx := { query := [("current", "3"), ("pageSize", "75")] } }

/-- A sample request state: trace identifier `t-1`, user identifier `u-1`, no
effects yet. -/
def sampleState : GinState :=
  { keys := [(ContextKey.TraceID, KeyValue.str "t-1"), (ContextKey.UserID, KeyValue.str "u-1")],
    events := [] }

/-- The sentinel `util.ErrNotFound` as an error value: its text, and the callers
recorded when it was created. -/
def sampleNotFound : ErrorValue :=
  { Error := "资源不存在", IsErrNotFound := true,
    StackTrace := some { frames := [1, 2, 3], spare := [] } }

/-- An error value of a type whose `StackTrace()` returns a single frame. -/
def sampleShortStack : ErrorValue :=
  { Error := "boom: disk full", IsErrNotFound := false,
    StackTrace := some { frames := [7], spare := [] } }

/-- An error value of a type whose `StackTrace()` returns the nil slice. -/
def sampleEmptyStack : ErrorValue :=
  { Error := "upstream unavailable", IsErrNotFound := false,
    StackTrace := some { frames := [], spare := [] } }

/-- An error value whose text begins with the separator, as a wrap with an empty
message gives. -/
def sampleEmptySegment : ErrorValue :=
  { Error := ": timeout", IsErrNotFound := false, StackTrace := none }

/-- An error value without a `StackTrace` method. -/
def samplePlain : ErrorValue :=
  { Error := "boom: connection refused", IsErrNotFound := false, StackTrace := none }

end context

/-! ## Pagination parameters of the request context -/

section pagination

open context

/-- C1: for every request and every string-to-unsigned conversion, with `v` the
value of the `pageSize` query parameter: a non-empty `v` that converts to a
positive integer at most 50 gives that integer; a non-empty `v` that converts to
an integer above 50 gives 50; in every other case (`v` empty, which includes an
absent parameter, or converted to 0, which is what unparsable, zero and
negative texts give) the result is 10. -/
theorem GetPageSize_cases (Uint : String → Nat) (a : Context) :
    (a.Query "pageSize" ≠ "" → 0 < Uint (a.Query "pageSize") →
        Uint (a.Query "pageSize") ≤ 50 →
        Context.GetPageSize Uint a = Uint (a.Query "pageSize")) ∧
    (a.Query "pageSize" ≠ "" → 50 < Uint (a.Query "pageSize") →
        Context.GetPageSize Uint a = 50) ∧
    (a.Query "pageSize" = "" ∨ Uint (a.Query "pageSize") = 0 →
        Context.GetPageSize Uint a = 10) := by
  refine ⟨?_, ?_, ?_⟩
  · intro hv hpos hle
    have h50 : ¬ 50 < Uint (a.Query "pageSize") := Nat.not_lt.mpr hle
    simp [Context.GetPageSize, hv, hpos, h50]
  · intro hv hgt
    have hpos : 0 < Uint (a.Query "pageSize") := Nat.lt_trans (by decide) hgt
    simp [Context.GetPageSize, hv, hpos, hgt]
  · rintro (hv | h0)
    · simp [Context.GetPageSize, hv]
    · simp [Context.GetPageSize, h0]

/-- Witness for C1 on the requests `?pageSize=20`, `?pageSize=75`, the request
without the parameter, and `?pageSize=-1`. -/
theorem GetPageSize_cases_witness :
    Context.GetPageSize util.S.Uint ⟨⟨[("pageSize", "20")]⟩⟩ = 20 ∧
    Context.GetPageSize util.S.Uint ⟨⟨[("pageSize", "75")]⟩⟩ = 50 ∧
    Context.GetPageSize util.S.Uint ⟨⟨[]⟩⟩ = 10 ∧
    Context.GetPageSize util.S.Uint ⟨⟨[("pageSize", "-1")]⟩⟩ = 10 :=
  ⟨(GetPageSize_cases util.S.Uint ⟨⟨[("pageSize", "20")]⟩⟩).1
      (by decide) (by decide) (by decide),
   (GetPageSize_cases util.S.Uint ⟨⟨[("pageSize", "75")]⟩⟩).2.1 (by decide) (by decide),
   (GetPageSize_cases util.S.Uint ⟨⟨[]⟩⟩).2.2 (Or.inl (by decide)),
   (GetPageSize_cases util.S.Uint ⟨⟨[("pageSize", "-1")]⟩⟩).2.2 (Or.inr (by decide))⟩

/-- C2: for every request and every string-to-unsigned conversion, with `v` the
value of the `current` query parameter: a non-empty `v` that converts to a
positive integer gives that integer; in every other case (`v` empty or absent,
or converted to 0) the result is 1. -/
theorem GetPageIndex_cases (Uint : String → Nat) (a : Context) :
    (a.Query "current" ≠ "" → 0 < Uint (a.Query "current") →
        Context.GetPageIndex Uint a = Uint (a.Query "current")) ∧
    (a.Query "current" = "" ∨ Uint (a.Query "current") = 0 →
        Context.GetPageIndex Uint a = 1) := by
  refine ⟨?_, ?_⟩
  · intro hv hpos
    simp [Context.GetPageIndex, hv, hpos]
  · rintro (hv | h0)
    · simp [Context.GetPageIndex, hv]
    · simp [Context.GetPageIndex, h0]

/-- Witness for C2 on the requests `?current=3`, `?current=abc` and
`?current=0`. -/
theorem GetPageIndex_cases_witness :
    Context.GetPageIndex util.S.Uint ⟨⟨[("current", "3")]⟩⟩ = 3 ∧
    Context.GetPageIndex util.S.Uint ⟨⟨[("current", "abc")]⟩⟩ = 1 ∧
    Context.GetPageIndex util.S.Uint ⟨⟨[("current", "0")]⟩⟩ = 1 :=
  ⟨(GetPageIndex_cases util.S.Uint ⟨⟨[("current", "3")]⟩⟩).1 (by decide) (by decide),
   (GetPageIndex_cases util.S.Uint ⟨⟨[("current", "abc")]⟩⟩).2 (Or.inr (by decide)),
   (GetPageIndex_cases util.S.Uint ⟨⟨[("current", "0")]⟩⟩).2 (Or.inr (by decide))⟩

/-- C3: for every request and whatever value the string-to-unsigned conversion
returns, `GetPageIndex` is at least 1 and `GetPageSize` lies in `[1, 50]`. -/
theorem pagination_bounds (Uint : String → Nat) (a : Context) :
    1 ≤ Context.GetPageIndex Uint a ∧
    1 ≤ Context.GetPageSize Uint a ∧ Context.GetPageSize Uint a ≤ 50 := by
  simp only [Context.GetPageIndex, Context.GetPageSize]
  refine ⟨?_, ?_, ?_⟩
  · split_ifs <;> omega
  · split_ifs <;> omega
  · split_ifs <;> omega

end pagination

/-! ## The CRUD service against an arbitrary persistence -/

section service

open model

/-- Deleting a key from a field map removes its binding and keeps every other
binding. -/
theorem FieldMap.get_delete (m : FieldMap) (k k' : String) :
    (m.delete k).get k' = if k' = k then none else m.get k' := by
  induction m with
  | nil => simp [FieldMap.delete, FieldMap.get]
  | cons kv rest ih =>
    obtain ⟨key, val⟩ := kv
    simp only [FieldMap.delete, FieldMap.get] at ih ⊢
    by_cases hk : key = k
    · subst hk
      by_cases hk' : k' = key
      · subst hk'
        simpa [List.filter_cons] using ih
      · have hne : (k' == key) = false := by simpa using hk'
        simp only [List.filter_cons, bne_self_eq_false, Bool.false_eq_true, if_false,
          List.lookup_cons, hne]
        simpa [hk'] using ih
    · have hbne : (key != k) = true := by simpa using hk
      simp only [List.filter_cons, hbne, if_true, List.lookup_cons]
      by_cases hk' : k' = key
      · subst hk'
        simp [hk]
      · have hne : (k' == key) = false := by simpa using hk'
        simp only [hne]
        exact ih

/-- C5: `Delete` gates on existence. When the existence check answers false
without error, `Delete` returns `util.ErrNotFound`, the only call issued is the
check, and the store is untouched; when it answers true, the calls issued are
the check followed by exactly one persistence `Delete` for that identifier,
whose error result and store are what `Delete` returns. -/
theorem Delete_gates_on_existence {σ : Type} (a : bll.Demo σ) (recordID : String)
    (w : World σ) :
    (a.DemoModel.Check w.store recordID = (false, none) →
      a.Delete recordID w =
        (some util.ErrNotFound,
          { store := w.store, calls := w.calls ++ [Call.Check recordID] })) ∧
    (a.DemoModel.Check w.store recordID = (true, none) →
      a.Delete recordID w =
        ((a.DemoModel.Delete w.store recordID).2,
          { store := (a.DemoModel.Delete w.store recordID).1,
            calls := w.calls ++ [Call.Check recordID, Call.Delete recordID] })) := by
  constructor
  · intro h
    simp [bll.Demo.Delete, IDemo.callCheck, h]
  · intro h
    simp [bll.Demo.Delete, IDemo.callCheck, IDemo.callDelete, h]

/-- C10: when `CheckCode` answers false without error, `Create` issues the check
and then one persistence `Create` whose entity has internal identifier 0,
record identifier `MustUUID`, created timestamp `Now`, delete marker 0 and the
caller's code, status, creator and updated timestamp; it returns that call's
result. -/
theorem Create_hands_stamped_entity {σ : Type} (a : bll.Demo σ) (MustUUID : String)
    (Now : Int) (item : schema.Demo) (w : World σ)
    (h : a.DemoModel.CheckCode w.store item.Code = (false, none)) :
    a.Create MustUUID Now item w =
      ((a.DemoModel.Create w.store
          { ID := 0, RecordID := MustUUID, Code := item.Code, Status := item.Status,
            Creator := item.Creator, Created := Now, Updated := item.Updated,
            Deleted := 0 }).2,
        { store := (a.DemoModel.Create w.store
            { ID := 0, RecordID := MustUUID, Code := item.Code, Status := item.Status,
              Creator := item.Creator, Created := Now, Updated := item.Updated,
              Deleted := 0 }).1,
          calls := w.calls ++ [Call.CheckCode item.Code,
            Call.Create
              { ID := 0, RecordID := MustUUID, Code := item.Code, Status := item.Status,
                Creator := item.Creator, Created := Now, Updated := item.Updated,
                Deleted := 0 }] }) := by
  simp [bll.Demo.Create, IDemo.callCheckCode, IDemo.callCreate, h]

/-- C9: `Update` with the stored record's own code does not consult the
existence check: the calls issued are `Get` and one persistence `Update`, whose
result is returned. With a different code for which the existence check
answers true, `Update` returns the conflict error after `Get` and `CheckCode`,
issues no persistence `Update` and leaves the store untouched. -/
theorem Update_code_check {σ : Type} (a : bll.Demo σ) (recordID : String)
    (item oldItem : schema.Demo) (w : World σ)
    (hget : a.DemoModel.Get w.store recordID = (some oldItem, none)) :
    (oldItem.Code = item.Code →
      a.Update recordID item w =
        ((a.DemoModel.Update w.store recordID
            [("code", Value.str item.Code), ("status", Value.int item.Status)]).2,
          { store := (a.DemoModel.Update w.store recordID
              [("code", Value.str item.Code), ("status", Value.int item.Status)]).1,
            calls := w.calls ++ [Call.Get recordID,
              Call.Update recordID
                [("code", Value.str item.Code), ("status", Value.int item.Status)]] })) ∧
    (oldItem.Code ≠ item.Code →
      a.DemoModel.CheckCode w.store item.Code = (true, none) →
      a.Update recordID item w =
        (some (errors.New "编号已经存在"),
          { store := w.store,
            calls := w.calls ++ [Call.Get recordID, Call.CheckCode item.Code] })) := by
  constructor
  · intro hc
    simp [bll.Demo.Update, bll.Demo.updateTail, IDemo.callGet, IDemo.callUpdate, hget, hc,
      util.StructToMap, FieldMap.delete, List.filter_cons]
  · intro hc hchk
    simp [bll.Demo.Update, IDemo.callGet, IDemo.callCheckCode, hget, hc, hchk]

/-- The calls one `Update` issues: it extends the record of calls by `Get`,
possibly `CheckCode`, and possibly one persistence `Update` for the same
identifier carrying the entity's field map without the six protected keys. -/
theorem Update_calls_shape {σ : Type} (a : bll.Demo σ) (recordID : String)
    (item : schema.Demo) (w : World σ) :
    ∃ issued, (a.Update recordID item w).2.calls = w.calls ++ issued ∧
      ∀ c ∈ issued, c = Call.Get recordID ∨ c = Call.CheckCode item.Code ∨
        c = Call.Update recordID
          (((((((util.StructToMap item).delete "id").delete "record_id").delete
            "creator").delete "created").delete "updated").delete "deleted") := by
  by_cases hE : (a.DemoModel.Get w.store recordID).2 = none
  swap
  · exact ⟨[Call.Get recordID], by simp [bll.Demo.Update, IDemo.callGet, hE], by simp⟩
  cases hG : (a.DemoModel.Get w.store recordID).1 with
  | none =>
    exact ⟨[Call.Get recordID], by simp [bll.Demo.Update, IDemo.callGet, hE, hG], by simp⟩
  | some oldItem =>
    by_cases hC : oldItem.Code = item.Code
    · exact ⟨[Call.Get recordID, Call.Update recordID
        (((((((util.StructToMap item).delete "id").delete "record_id").delete
          "creator").delete "created").delete "updated").delete "deleted")],
        by simp [bll.Demo.Update, bll.Demo.updateTail, IDemo.callGet, IDemo.callUpdate, hE,
          hG, hC], by simp⟩
    by_cases hE2 : (a.DemoModel.CheckCode w.store item.Code).2 = none
    swap
    · exact ⟨[Call.Get recordID, Call.CheckCode item.Code],
        by simp [bll.Demo.Update, IDemo.callGet, IDemo.callCheckCode, hE, hG, hC, hE2],
        by simp⟩
    cases hX : (a.DemoModel.CheckCode w.store item.Code).1 with
    | true =>
      exact ⟨[Call.Get recordID, Call.CheckCode item.Code],
        by simp [bll.Demo.Update, IDemo.callGet, IDemo.callCheckCode, hE, hG, hC, hE2, hX],
        by simp⟩
    | false =>
      exact ⟨[Call.Get recordID, Call.CheckCode item.Code, Call.Update recordID
        (((((((util.StructToMap item).delete "id").delete "record_id").delete
          "creator").delete "created").delete "updated").delete "deleted")],
        by simp [bll.Demo.Update, bll.Demo.updateTail, IDemo.callGet, IDemo.callCheckCode,
          IDemo.callUpdate, hE, hG, hC, hE2, hX], by simp⟩

/-- C7: for every entity passed to `Update`, every persistence `Update` call
this `Update` issues is for the given record identifier, and its field-change
map binds none of the keys `id`, `record_id`, `creator`, `created`, `updated`,
`deleted`, and binds every other key exactly as the entity's field map does. -/
theorem Update_info_excludes_protected {σ : Type} (a : bll.Demo σ) (recordID : String)
    (item : schema.Demo) (w : World σ) (issued : List Call) (rid : String) (info : FieldMap)
    (hcalls : (a.Update recordID item w).2.calls = w.calls ++ issued)
    (hmem : Call.Update rid info ∈ issued) :
    rid = recordID ∧
    (∀ k ∈ ["id", "record_id", "creator", "created", "updated", "deleted"],
        info.get k = none) ∧
    (∀ k, k ∉ ["id", "record_id", "creator", "created", "updated", "deleted"] →
        info.get k = (util.StructToMap item).get k) := by
  obtain ⟨issued', hc, hshape⟩ := Update_calls_shape a recordID item w
  have heq : issued = issued' := List.append_cancel_left (hcalls.symm.trans hc)
  subst heq
  rcases hshape _ hmem with h | h | h
  · cases h
  · cases h
  · injection h with hrid hinfo
    subst hrid hinfo
    refine ⟨rfl, ?_, ?_⟩
    · intro k hk
      simp only [FieldMap.get_delete]
      simp only [List.mem_cons, List.mem_singleton, List.not_mem_nil, or_false] at hk
      rcases hk with rfl | rfl | rfl | rfl | rfl | rfl <;> simp
    · intro k hk
      simp only [List.mem_cons, List.mem_singleton, List.not_mem_nil, or_false, not_or] at hk
      obtain ⟨h1, h2, h3, h4, h5, h6⟩ := hk
      simp only [FieldMap.get_delete, h1, h2, h3, h4, h5, h6, if_false]

end service

/-! ## The in-memory store: structure of the stored list -/

section store_lemmas

open model memstore

theorem memstore.liveCodes_append (s t : Store) :
    liveCodes (s ++ t) = liveCodes s ++ liveCodes t := by
  simp [liveCodes]

theorem memstore.liveCodes_cons_live (e : schema.Demo) (s : Store) (h : live e = true) :
    liveCodes (e :: s) = e.Code :: liveCodes s := by
  simp [liveCodes, List.filter_cons, h]

theorem memstore.liveCodes_cons_dead (e : schema.Demo) (s : Store) (h : live e = false) :
    liveCodes (e :: s) = liveCodes s := by
  simp [liveCodes, List.filter_cons, h]

/-- The existence check on a code is true exactly when a live entity has it. -/
theorem memstore.codeExists_iff (s : Store) (code : String) :
    codeExists s code = true ↔ code ∈ liveCodes s := by
  simp only [codeExists, liveCodes, List.any_eq_true, List.mem_map, List.mem_filter,
    Bool.and_eq_true, beq_iff_eq]
  constructor
  · rintro ⟨e, he, hl, hc⟩
    exact ⟨e, ⟨he, hl⟩, hc⟩
  · rintro ⟨e, ⟨he, hl⟩, hc⟩
    exact ⟨e, he, hl, hc⟩

/-- A record found by identifier splits the store around it, with no earlier
entity designated by the same identifier. -/
theorem memstore.find_split (s : Store) (recordID : String) (e : schema.Demo)
    (h : find s recordID = some e) :
    identifies recordID e = true ∧
    ∃ pre post, s = pre ++ e :: post ∧ ∀ x ∈ pre, identifies recordID x = false := by
  induction s with
  | nil => simp [find] at h
  | cons x rest ih =>
    by_cases hx : identifies recordID x = true
    · have hxe : x = e := by simpa [find, List.find?_cons, hx] using h
      subst hxe
      exact ⟨hx, [], rest, rfl, by simp⟩
    · have hx' : identifies recordID x = false := by simpa using hx
      have hrest : find rest recordID = some e := by
        simpa [find, List.find?_cons, hx'] using h
      obtain ⟨hid, pre, post, hs, hpre⟩ := ih hrest
      refine ⟨hid, x :: pre, post, by simp [hs], ?_⟩
      intro y hy
      rcases List.mem_cons.mp hy with rfl | hy
      · exact hx'
      · exact hpre y hy

/-- No record found: no entity is designated by the identifier. -/
theorem memstore.find_none (s : Store) (recordID : String) (h : find s recordID = none) :
    ∀ x ∈ s, identifies recordID x = false := by
  intro x hx
  have := List.find?_eq_none.mp h x hx
  simpa using this

theorem memstore.updateFirst_split (p : schema.Demo → Bool) (f : schema.Demo → schema.Demo)
    (pre post : Store) (e : schema.Demo) (hpre : ∀ x ∈ pre, p x = false) (he : p e = true) :
    updateFirst p f (pre ++ e :: post) = pre ++ f e :: post := by
  induction pre with
  | nil => simp [updateFirst, he]
  | cons x rest ih =>
    have hx : p x = false := hpre x (List.mem_cons_self _ _)
    have := ih (fun y hy => hpre y (List.mem_cons_of_mem _ hy))
    simp [updateFirst, hx, this]

theorem memstore.updateFirst_none (p : schema.Demo → Bool) (f : schema.Demo → schema.Demo)
    (s : Store) (h : ∀ x ∈ s, p x = false) : updateFirst p f s = s := by
  induction s with
  | nil => rfl
  | cons x rest ih =>
    have hx : p x = false := h x (List.mem_cons_self _ _)
    simp [updateFirst, hx, ih (fun y hy => h y (List.mem_cons_of_mem _ hy))]

theorem memstore.find_of_split (pre post : Store) (e : schema.Demo) (recordID : String)
    (hpre : ∀ x ∈ pre, identifies recordID x = false) (he : identifies recordID e = true) :
    find (pre ++ e :: post) recordID = some e := by
  induction pre with
  | nil => simp [find, List.find?_cons, he]
  | cons x rest ih =>
    have hx : identifies recordID x = false := hpre x (List.mem_cons_self _ _)
    have := ih (fun y hy => hpre y (List.mem_cons_of_mem _ hy))
    simpa [find, List.find?_cons, hx] using this

/-- The field map `Update` builds, applied to an entity, sets its code and
status to the supplied entity's and nothing else. -/
theorem memstore.applyFields_update (item e : schema.Demo) :
    applyFields [("code", Value.str item.Code), ("status", Value.int item.Status)] e =
      { e with Code := item.Code, Status := item.Status } := by
  simp [applyFields, setField]

/-- The field map `UpdateStatus` builds, applied to an entity, sets its status
and nothing else. -/
theorem memstore.applyFields_status (status : Int) (e : schema.Demo) :
    applyFields [("status", Value.int status)] e = { e with Status := status } := by
  simp [applyFields, setField]

/-- Replacing a live entity by a live one with another code keeps uniqueness,
provided the new code is the old one or is carried by no live entity. -/
theorem memstore.CodeUnique_replace (pre post : Store) (e e' : schema.Demo)
    (hu : CodeUnique (pre ++ e :: post)) (hl : live e = true) (hl' : live e' = true)
    (hc : e'.Code = e.Code ∨ e'.Code ∉ liveCodes (pre ++ e :: post)) :
    CodeUnique (pre ++ e' :: post) := by
  unfold CodeUnique at hu ⊢
  rw [liveCodes_append, liveCodes_cons_live _ _ hl] at hu
  rw [liveCodes_append, liveCodes_cons_live _ _ hl']
  rcases hc with hc | hc
  · rw [hc]; exact hu
  · rw [liveCodes_append, liveCodes_cons_live _ _ hl] at hc
    rw [List.nodup_middle] at hu ⊢
    rw [List.nodup_cons] at hu ⊢
    refine ⟨?_, hu.2⟩
    intro hmem
    apply hc
    rcases List.mem_append.mp hmem with h | h
    · exact List.mem_append_left _ h
    · exact List.mem_append_right _ (List.mem_cons_of_mem _ h)

/-- Replacing an entity by a deleted one keeps uniqueness. -/
theorem memstore.CodeUnique_kill (pre post : Store) (e e' : schema.Demo)
    (hu : CodeUnique (pre ++ e :: post)) (hl' : live e' = false) :
    CodeUnique (pre ++ e' :: post) := by
  unfold CodeUnique at hu ⊢
  rw [liveCodes_append] at hu
  rw [liveCodes_append, liveCodes_cons_dead _ _ hl']
  by_cases hl : live e = true
  · rw [liveCodes_cons_live _ _ hl, List.nodup_middle, List.nodup_cons] at hu
    exact hu.2
  · have hl0 : live e = false := by simpa using hl
    rw [liveCodes_cons_dead _ _ hl0] at hu
    exact hu

/-- Storing a live entity whose code no live entity carries keeps uniqueness. -/
theorem memstore.CodeUnique_add (s : Store) (e : schema.Demo) (hu : CodeUnique s)
    (hl : live e = true) (hc : e.Code ∉ liveCodes s) : CodeUnique (s ++ [e]) := by
  unfold CodeUnique at hu ⊢
  rw [liveCodes_append, liveCodes_cons_live _ _ hl]
  have : liveCodes [] = [] := rfl
  rw [this, List.nodup_middle, List.append_nil, List.nodup_cons]
  exact ⟨hc, hu⟩

end store_lemmas

/-! ## The CRUD service over the in-memory store -/

section service_on_store

open model memstore

/-- The in-memory persistence honours the interface, whichever calls fail. -/
theorem memstore.IDemo_honours (fault : Call → Option GoError) :
    Honours (IDemo fault) (fun s => s) := by
  refine ⟨?_, ?_, ?_, ?_, ?_⟩
  · intro s recordID item herr hitem
    simp only [memstore.IDemo] at herr hitem
    split at hitem
    · simp at hitem
    · exact hitem
  · intro s code herr
    simp only [memstore.IDemo] at herr ⊢
    split
    · rename_i e he
      simp [he] at herr
    · rfl
  · intro s item
    simp only [memstore.IDemo]
    split
    · exact Or.inl rfl
    · exact Or.inr ⟨_, rfl⟩
  · intro s recordID info
    simp only [memstore.IDemo]
    split
    · exact Or.inl rfl
    · exact Or.inr rfl
  · intro s recordID
    simp only [memstore.IDemo]
    split
    · exact Or.inl rfl
    · exact Or.inr ⟨1, by decide, rfl⟩

/-- Service `Create` keeps the uniqueness invariant. -/
theorem memstore.Create_keeps_unique {σ : Type} (a : bll.Demo σ) (rows : σ → Store)
    (h : Honours a.DemoModel rows) (u : String) (t : Int) (item : schema.Demo)
    (w : World σ) (hu : CodeUnique (rows w.store)) :
    CodeUnique (rows (a.Create u t item w).2.store) := by
  simp only [bll.Demo.Create, IDemo.callCheckCode, IDemo.callCreate]
  by_cases hE : (a.DemoModel.CheckCode w.store item.Code).2 = none
  swap
  · simpa [hE] using hu
  have hb := h.CheckCode_exact w.store item.Code hE
  cases hex : codeExists (rows w.store) item.Code with
  | true => simpa [hE, hb, hex] using hu
  | false =>
    simp only [hE, hb, hex, ne_eq, not_true_eq_false, if_false, Bool.false_eq_true]
    have hnot : item.Code ∉ liveCodes (rows w.store) := by
      intro hmem
      have := (codeExists_iff (rows w.store) item.Code).mpr hmem
      rw [hex] at this
      exact Bool.false_ne_true this
    rcases h.Create_effect w.store
      { ID := 0, RecordID := u, Code := item.Code, Status := item.Status,
        Creator := item.Creator, Created := t, Updated := item.Updated, Deleted := 0 }
      with h1 | ⟨id, h1⟩
    · rw [h1]; exact hu
    · rw [h1]
      exact CodeUnique_add _ _ hu rfl hnot

/-- A persistence `Update` that changes only the status, or sets a code that is
the designated record's own or is carried by no live entity, keeps the
uniqueness invariant. -/
theorem memstore.Update_effect_keeps_unique (s : Store) (recordID : String)
    (info : FieldMap) (hu : CodeUnique s)
    (hsame : ∀ e, live (applyFields info e) = live e)
    (hcode : ∀ old, find s recordID = some old →
      (applyFields info old).Code = old.Code ∨ (applyFields info old).Code ∉ liveCodes s) :
    CodeUnique (updateFirst (identifies recordID) (applyFields info) s) := by
  cases hfind : find s recordID with
  | none =>
    rw [updateFirst_none _ _ s (find_none s recordID hfind)]
    exact hu
  | some old =>
    obtain ⟨hid, pre, post, hs, hpre⟩ := find_split s recordID old hfind
    have hlive : live old = true := by
      simp only [identifies, Bool.and_eq_true] at hid
      exact hid.1
    have hc := hcode old hfind
    rw [hs, updateFirst_split _ _ pre post old hpre hid]
    rw [hs] at hu hc
    exact CodeUnique_replace pre post old _ hu hlive ((hsame old).trans hlive) hc

/-- The tail of `Update` keeps the uniqueness invariant when the supplied code
is the designated record's own or is carried by no live entity. -/
theorem memstore.updateTail_keeps_unique {σ : Type} (a : bll.Demo σ) (rows : σ → Store)
    (h : Honours a.DemoModel rows) (recordID : String) (item old : schema.Demo)
    (w : World σ) (hu : CodeUnique (rows w.store))
    (hfind : find (rows w.store) recordID = some old)
    (hc : old.Code = item.Code ∨ codeExists (rows w.store) item.Code = false) :
    CodeUnique (rows (a.updateTail recordID item w).2.store) := by
  have hmap : (((((((util.StructToMap item).delete "id").delete "record_id").delete
      "creator").delete "created").delete "updated").delete "deleted") =
      [("code", Value.str item.Code), ("status", Value.int item.Status)] := by
    simp [util.StructToMap, FieldMap.delete, List.filter_cons]
  simp only [bll.Demo.updateTail, IDemo.callUpdate, hmap]
  rcases h.Update_effect w.store recordID
    [("code", Value.str item.Code), ("status", Value.int item.Status)] with h1 | h1
  · rw [h1]; exact hu
  · rw [h1]
    apply Update_effect_keeps_unique _ _ _ hu
    · intro e
      rw [applyFields_update]
      rfl
    · intro old' hold'
      rw [applyFields_update]
      have : old' = old := Option.some.inj (hold'.symm.trans hfind)
      subst this
      rcases hc with hc | hc
      · exact Or.inl hc.symm
      · right
        intro hmem
        have := (codeExists_iff (rows w.store) item.Code).mpr hmem
        rw [hc] at this
        exact Bool.false_ne_true this

/-- Service `Update` keeps the uniqueness invariant. -/
theorem memstore.Update_keeps_unique {σ : Type} (a : bll.Demo σ) (rows : σ → Store)
    (h : Honours a.DemoModel rows) (recordID : String) (item : schema.Demo)
    (w : World σ) (hu : CodeUnique (rows w.store)) :
    CodeUnique (rows (a.Update recordID item w).2.store) := by
  simp only [bll.Demo.Update, IDemo.callGet, IDemo.callCheckCode]
  by_cases hE : (a.DemoModel.Get w.store recordID).2 = none
  swap
  · simpa [hE] using hu
  cases hG : (a.DemoModel.Get w.store recordID).1 with
  | none => simpa [hE, hG] using hu
  | some old =>
    have hfind := h.Get_designated w.store recordID old hE hG
    simp only [hE, ne_eq, not_true_eq_false, if_false]
    by_cases hC : old.Code = item.Code
    · simp only [hC, not_true_eq_false, if_false]
      exact updateTail_keeps_unique a rows h recordID item old _ hu hfind (Or.inl hC)
    simp only [hC, not_false_eq_true, if_true]
    by_cases hE2 : (a.DemoModel.CheckCode w.store item.Code).2 = none
    swap
    · simpa [hE2] using hu
    have hb := h.CheckCode_exact w.store item.Code hE2
    cases hex : codeExists (rows w.store) item.Code with
    | true => simpa [hE2, hb, hex] using hu
    | false =>
      simp only [hE2, hb, hex, not_true_eq_false, if_false, Bool.false_eq_true]
      exact updateTail_keeps_unique a rows h recordID item old _ hu hfind (Or.inr hex)

/-- Service `UpdateStatus` keeps the uniqueness invariant. -/
theorem memstore.UpdateStatus_keeps_unique {σ : Type} (a : bll.Demo σ) (rows : σ → Store)
    (h : Honours a.DemoModel rows) (recordID : String) (status : Int) (w : World σ)
    (hu : CodeUnique (rows w.store)) :
    CodeUnique (rows (a.UpdateStatus recordID status w).2.store) := by
  simp only [bll.Demo.UpdateStatus, IDemo.callCheck, IDemo.callUpdate]
  split_ifs
  · exact hu
  · exact hu
  · rcases h.Update_effect w.store recordID [("status", Value.int status)] with h1 | h1
    · simp only [h1]; exact hu
    · simp only [h1]
      apply Update_effect_keeps_unique _ _ _ hu
      · intro e
        rw [applyFields_status]
        rfl
      · intro old _
        rw [applyFields_status]
        exact Or.inl rfl

/-- A persistence `Delete` keeps the uniqueness invariant. -/
theorem memstore.Delete_effect_keeps_unique (s : Store) (recordID : String) (d : Int)
    (hd : d ≠ 0) (hu : CodeUnique s) :
    CodeUnique
      (updateFirst (identifies recordID) (fun e => { e with Deleted := d }) s) := by
  cases hfind : find s recordID with
  | none =>
    rw [updateFirst_none _ _ s (find_none s recordID hfind)]
    exact hu
  | some old =>
    obtain ⟨hid, pre, post, hs, hpre⟩ := find_split s recordID old hfind
    rw [hs, updateFirst_split _ _ pre post old hpre hid]
    rw [hs] at hu
    exact CodeUnique_kill pre post old _ hu (by simpa [live] using hd)

/-- Service `Delete` keeps the uniqueness invariant. -/
theorem memstore.Delete_keeps_unique {σ : Type} (a : bll.Demo σ) (rows : σ → Store)
    (h : Honours a.DemoModel rows) (recordID : String) (w : World σ)
    (hu : CodeUnique (rows w.store)) :
    CodeUnique (rows (a.Delete recordID w).2.store) := by
  simp only [bll.Demo.Delete, IDemo.callCheck, IDemo.callDelete]
  split_ifs
  · exact hu
  · exact hu
  · rcases h.Delete_effect w.store recordID with h1 | ⟨d, hd, h1⟩
    · simp only [h1]; exact hu
    · simp only [h1]
      exact Delete_effect_keeps_unique _ _ d hd hu

/-- Every service operation keeps the uniqueness invariant. -/
theorem memstore.step_keeps_unique {σ : Type} (a : bll.Demo σ) (rows : σ → Store)
    (h : Honours a.DemoModel rows) (op : bll.Op) (w : World σ)
    (hu : CodeUnique (rows w.store)) : CodeUnique (rows (a.step op w).2.store) := by
  cases op with
  | Create u t item => exact Create_keeps_unique a rows h u t item w hu
  | Update recordID item => exact Update_keeps_unique a rows h recordID item w hu
  | UpdateStatus recordID status =>
    exact UpdateStatus_keeps_unique a rows h recordID status w hu
  | Delete recordID => exact Delete_keeps_unique a rows h recordID w hu

/-- C8: the uniqueness invariant is preserved by every service operation. Over
any persistence that honours its interface (a successful code check is true
exactly when a live entity has the code, a successful `Get` returns the live
entity the identifier designates, each command leaves the stored entities as
they were or has its effect), starting from any state in which no two live
entities share a business code, every sequential run of `Create`, `Update`,
`UpdateStatus` and `Delete`, with any arguments and whether each call succeeds
or fails, ends in a state in which no two live entities share a business
code. -/
theorem uniqueness_preserved_by_runs {σ : Type} (a : bll.Demo σ) (rows : σ → Store)
    (h : Honours a.DemoModel rows) (ops : List bll.Op) (w : World σ)
    (hu : CodeUnique (rows w.store)) : CodeUnique (rows (a.run ops w).store) := by
  induction ops generalizing w with
  | nil => exact hu
  | cons op rest ih => exact ih (a.step op w).2 (step_keeps_unique a rows h op w hu)

/-- Service `Create` over the in-memory persistence without failures: a conflict when a
live entity has the code, otherwise the stamped entity is stored. -/
theorem memstore.service_Create_eval (u : String) (t : Int) (item : schema.Demo)
    (w : World Store) :
    (codeExists w.store item.Code = true →
      service.Create u t item w =
        (some (errors.New "编号已经存在"),
          { store := w.store, calls := w.calls ++ [Call.CheckCode item.Code] })) ∧
    (codeExists w.store item.Code = false →
      (service.Create u t item w).1 = none ∧
      (service.Create u t item w).2.store =
        w.store ++
          [{ ID := (w.store.length : Int) + 1, RecordID := u, Code := item.Code,
             Status := item.Status, Creator := item.Creator, Created := t,
             Updated := item.Updated, Deleted := 0 }]) := by
  constructor
  · intro h
    simp [service, bll.Demo.Create, IDemo.callCheckCode, memstore.IDemo, noFault, h]
  · intro h
    simp [service, bll.Demo.Create, IDemo.callCheckCode, IDemo.callCreate, memstore.IDemo,
      noFault, h]

/-- C4: (1) against any persistence, `Create` with an entity whose code the
existence check reports as present (true, no error) returns the conflict error
"编号已经存在", issues the check and no persistence `Create`, and leaves the store
as it was. (2) Over the in-memory persistence, from any store satisfying the
uniqueness invariant, two successive `Create` calls with the same code: the
second returns the conflict error and stores nothing, and exactly one live
entity carries that code afterwards. -/
theorem Create_conflict_no_second_entity :
    (∀ (σ : Type) (a : bll.Demo σ) (MustUUID : String) (Now : Int) (item : schema.Demo)
        (w : World σ),
        a.DemoModel.CheckCode w.store item.Code = (true, none) →
        a.Create MustUUID Now item w =
          (some (errors.New "编号已经存在"),
            { store := w.store, calls := w.calls ++ [Call.CheckCode item.Code] })) ∧
    (∀ (s : Store) (calls : List Call) (u1 u2 : String) (t1 t2 : Int)
        (item1 item2 : schema.Demo),
        CodeUnique s → item1.Code = item2.Code →
        (service.Create u2 t2 item2 (service.Create u1 t1 item1 ⟨s, calls⟩).2).1 =
            some (errors.New "编号已经存在") ∧
        (service.Create u2 t2 item2 (service.Create u1 t1 item1 ⟨s, calls⟩).2).2.store =
            (service.Create u1 t1 item1 ⟨s, calls⟩).2.store ∧
        (liveCodes
          (service.Create u2 t2 item2 (service.Create u1 t1 item1 ⟨s, calls⟩).2).2.store).count
            item1.Code = 1) := by
  constructor
  · intro σ a u t item w h
    simp [bll.Demo.Create, IDemo.callCheckCode, h]
  · intro s calls u1 u2 t1 t2 item1 item2 hu hcode
    cases hex : codeExists s item1.Code with
    | true =>
      have h1 := (service_Create_eval u1 t1 item1 ⟨s, calls⟩).1 hex
      rw [h1]
      have hex2 : codeExists s item2.Code = true := hcode ▸ hex
      have h2 := (service_Create_eval u2 t2 item2
        ⟨s, calls ++ [Call.CheckCode item1.Code]⟩).1 hex2
      rw [h2]
      refine ⟨rfl, rfl, ?_⟩
      exact List.count_eq_one_of_mem hu ((codeExists_iff s item1.Code).mp hex)
    | false =>
      obtain ⟨-, hstore⟩ := (service_Create_eval u1 t1 item1 ⟨s, calls⟩).2 hex
      have hnot : item1.Code ∉ liveCodes s := by
        intro hmem
        have := (codeExists_iff s item1.Code).mpr hmem
        rw [hex] at this
        exact Bool.false_ne_true this
      have hex2 : codeExists (service.Create u1 t1 item1 ⟨s, calls⟩).2.store item2.Code
          = true := by
        rw [hstore, codeExists_iff, liveCodes_append, ← hcode]
        exact List.mem_append_right _ (by simp [liveCodes, live])
      have h2 := (service_Create_eval u2 t2 item2
        (service.Create u1 t1 item1 ⟨s, calls⟩).2).1 hex2
      rw [h2]
      refine ⟨rfl, rfl, ?_⟩
      simp only
      rw [hstore, liveCodes_append, List.count_append, List.count_eq_zero_of_not_mem hnot]
      simp [liveCodes, live]

/-- C6: over the in-memory persistence (its update applies exactly the supplied
field map to the identified record), whichever calls fail: `Update` on an
existing record with the stored entity changed in status only leaves the
identifier designating a record with the stored code, record identifier and
created timestamp; and when `Update` reports no error, that record is the
stored one with the new status. -/
theorem Update_status_only_keeps_identity (fault : Call → Option GoError) (s : Store)
    (calls : List Call) (recordID : String) (old : schema.Demo) (status : Int)
    (hfind : find s recordID = some old) :
    (∃ e, find (bll.Demo.Update { DemoModel := IDemo fault } recordID
            { old with Status := status } ⟨s, calls⟩).2.store recordID = some e ∧
        e.Code = old.Code ∧ e.RecordID = old.RecordID ∧ e.Created = old.Created) ∧
    ((bll.Demo.Update { DemoModel := IDemo fault } recordID
          { old with Status := status } ⟨s, calls⟩).1 = none →
      find (bll.Demo.Update { DemoModel := IDemo fault } recordID
          { old with Status := status } ⟨s, calls⟩).2.store recordID =
        some { old with Status := status }) := by
  have key :
      ((bll.Demo.Update { DemoModel := IDemo fault } recordID
          { old with Status := status } ⟨s, calls⟩).1 ≠ none ∧
        (bll.Demo.Update { DemoModel := IDemo fault } recordID
          { old with Status := status } ⟨s, calls⟩).2.store = s) ∨
      find (bll.Demo.Update { DemoModel := IDemo fault } recordID
          { old with Status := status } ⟨s, calls⟩).2.store recordID =
        some { old with Status := status } := by
    simp only [bll.Demo.Update, bll.Demo.updateTail, IDemo.callGet, IDemo.callUpdate,
      memstore.IDemo]
    cases hf : fault (Call.Get recordID) with
    | some e => left; simp
    | none =>
      simp only [hfind, ne_eq, not_true_eq_false, if_false]
      split
      · left; simp [*]
      · right
        obtain ⟨hid, pre, post, hs, hpre⟩ := find_split s recordID old hfind
        have hmap : (((((((util.StructToMap { old with Status := status }).delete "id").delete
            "record_id").delete "creator").delete "created").delete "updated").delete
            "deleted") =
            [("code", Value.str old.Code), ("status", Value.int status)] := by
          simp [util.StructToMap, FieldMap.delete, List.filter_cons]
        simp only [hmap]
        rw [hs, updateFirst_split _ _ pre post old hpre hid]
        have happ : applyFields [("code", Value.str old.Code), ("status", Value.int status)]
            old = { old with Status := status } := by
          simp [applyFields, setField]
        rw [happ]
        exact find_of_split pre post _ recordID hpre (by simpa [identifies, live] using hid)
  constructor
  · rcases key with ⟨-, hstore⟩ | hnew
    · exact ⟨old, by rw [hstore]; exact hfind, rfl, rfl, rfl⟩
    · exact ⟨_, hnew, rfl, rfl, rfl⟩
  · intro hnone
    rcases key with ⟨hne, -⟩ | hnew
    · exact absurd hnone hne
    · exact hnew

end service_on_store

/-! ## The theorems on concrete stores -/

section concrete

open model memstore

/-- The in-memory `Get` returns only live entities carrying the identifier. -/
theorem memstore.Get_returns_live (fault : Call → Option GoError) (s : Store)
    (recordID : String) (e : schema.Demo)
    (h : ((IDemo fault).Get s recordID).1 = some e) :
    e ∈ s ∧ e.Deleted = 0 ∧ e.RecordID = recordID := by
  simp only [memstore.IDemo] at h
  split at h
  · simp at h
  · have hfind : find s recordID = some e := h
    obtain ⟨hid, pre, post, hs, -⟩ := find_split s recordID e hfind
    simp only [identifies, live, Bool.and_eq_true, beq_iff_eq] at hid
    exact ⟨by simp [hs], hid.1, hid.2⟩

/-- Witness for C4: a `Create` with the code of the stored live entity, and two
successive creates with one code on the empty store. -/
theorem Create_conflict_no_second_entity_witness :
    (service.DemoModel.CheckCode [sampleA] sampleA.Code = (true, none) ∧
      service.Create "u" 5 sampleA { store := [sampleA], calls := [] } =
        (some (errors.New "编号已经存在"),
          { store := [sampleA], calls := [] ++ [Call.CheckCode sampleA.Code] })) ∧
    (CodeUnique [] ∧ sampleA.Code = { sampleA with Status := 2 }.Code ∧
      (service.Create "u2" 6 { sampleA with Status := 2 }
          (service.Create "u1" 5 sampleA ⟨[], []⟩).2).1 =
        some (errors.New "编号已经存在") ∧
      (service.Create "u2" 6 { sampleA with Status := 2 }
          (service.Create "u1" 5 sampleA ⟨[], []⟩).2).2.store =
        (service.Create "u1" 5 sampleA ⟨[], []⟩).2.store ∧
      (liveCodes (service.Create "u2" 6 { sampleA with Status := 2 }
          (service.Create "u1" 5 sampleA ⟨[], []⟩).2).2.store).count sampleA.Code = 1) :=
  ⟨⟨by decide,
      Create_conflict_no_second_entity.1 Store service "u" 5 sampleA
        { store := [sampleA], calls := [] } (by decide)⟩,
    ⟨by decide, rfl,
      Create_conflict_no_second_entity.2 [] [] "u1" "u2" 5 6 sampleA
        { sampleA with Status := 2 } (by decide) rfl⟩⟩

/-- Witness for C5: `Delete` of an unknown identifier on the empty store, and of
the stored entity's identifier. -/
theorem Delete_gates_on_existence_witness :
    (service.DemoModel.Check [] "r1" = (false, none) ∧
      service.Delete "r1" { store := [], calls := [] } =
        (some util.ErrNotFound,
          { store := [], calls := [] ++ [Call.Check "r1"] })) ∧
    (service.DemoModel.Check [sampleA] "r1" = (true, none) ∧
      service.Delete "r1" { store := [sampleA], calls := [] } =
        ((service.DemoModel.Delete [sampleA] "r1").2,
          { store := (service.DemoModel.Delete [sampleA] "r1").1,
            calls := [] ++ [Call.Check "r1", Call.Delete "r1"] })) :=
  ⟨⟨by decide,
      (Delete_gates_on_existence service "r1" { store := [], calls := [] }).1 (by decide)⟩,
    ⟨by decide,
      (Delete_gates_on_existence service "r1" { store := [sampleA], calls := [] }).2
        (by decide)⟩⟩

/-- Witness for C6: a status-only `Update` of the second stored entity. -/
theorem Update_status_only_keeps_identity_witness :
    find [sampleA, sampleB] "r2" = some sampleB ∧
    ((∃ e, find (bll.Demo.Update { DemoModel := IDemo noFault } "r2"
            { sampleB with Status := 2 } ⟨[sampleA, sampleB], []⟩).2.store "r2" = some e ∧
        e.Code = sampleB.Code ∧ e.RecordID = sampleB.RecordID ∧
        e.Created = sampleB.Created) ∧
    ((bll.Demo.Update { DemoModel := IDemo noFault } "r2"
          { sampleB with Status := 2 } ⟨[sampleA, sampleB], []⟩).1 = none →
      find (bll.Demo.Update { DemoModel := IDemo noFault } "r2"
          { sampleB with Status := 2 } ⟨[sampleA, sampleB], []⟩).2.store "r2" =
        some { sampleB with Status := 2 })) :=
  ⟨by decide,
    Update_status_only_keeps_identity noFault [sampleA, sampleB] [] "r2" sampleB 2
      (by decide)⟩

/-- Witness for C7: an `Update` whose entity carries forged values in the
protected attributes. -/
theorem Update_info_excludes_protected_witness :
    (service.Update "r1" { sampleA with ID := 999, Status := 2, Deleted := 7 }
        { store := [sampleA], calls := [] }).2.calls =
      [] ++ [Call.Get "r1",
        Call.Update "r1" [("code", Value.str "A"), ("status", Value.int 2)]] ∧
    Call.Update "r1" [("code", Value.str "A"), ("status", Value.int 2)] ∈
      [Call.Get "r1", Call.Update "r1" [("code", Value.str "A"), ("status", Value.int 2)]] ∧
    ("r1" = "r1" ∧
    (∀ k ∈ ["id", "record_id", "creator", "created", "updated", "deleted"],
        FieldMap.get [("code", Value.str "A"), ("status", Value.int 2)] k = none) ∧
    (∀ k, k ∉ ["id", "record_id", "creator", "created", "updated", "deleted"] →
        FieldMap.get [("code", Value.str "A"), ("status", Value.int 2)] k =
          (util.StructToMap { sampleA with ID := 999, Status := 2, Deleted := 7 }).get k)) :=
  ⟨by decide, by decide,
    Update_info_excludes_protected service "r1"
      { sampleA with ID := 999, Status := 2, Deleted := 7 }
      { store := [sampleA], calls := [] }
      [Call.Get "r1", Call.Update "r1" [("code", Value.str "A"), ("status", Value.int 2)]]
      "r1" [("code", Value.str "A"), ("status", Value.int 2)] (by decide) (by decide)⟩

/-- Witness for C8: the sample run of the service over the in-memory
persistence with one failing call, on a store of two live entities; it ends
with the live codes `D`, `C`, `A`. -/
theorem uniqueness_preserved_by_runs_witness :
    Honours (IDemo sampleFault) (fun s => s) ∧
    CodeUnique [sampleA, sampleB] ∧
    liveCodes
      ((bll.Demo.mk (IDemo sampleFault)).run sampleRun
        { store := [sampleA, sampleB], calls := [] }).store = ["D", "C", "A"] ∧
    CodeUnique
      ((bll.Demo.mk (IDemo sampleFault)).run sampleRun
        { store := [sampleA, sampleB], calls := [] }).store :=
  ⟨IDemo_honours sampleFault, by decide, by decide,
    uniqueness_preserved_by_runs (bll.Demo.mk (IDemo sampleFault)) (fun s => s)
      (IDemo_honours sampleFault) sampleRun { store := [sampleA, sampleB], calls := [] }
      (by decide)⟩

/-- Witness for C9: on a store where the code check is true for `A`, an `Update`
of the record carrying `A` that keeps the code, and one of the same record that
takes the code `B` of another live entity. -/
theorem Update_code_check_witness :
    service.DemoModel.Get [sampleA, sampleB] "r1" = (some sampleA, none) ∧
    service.DemoModel.CheckCode [sampleA, sampleB] "A" = (true, none) ∧
    (sampleA.Code = { sampleA with Status := 2 }.Code ∧
      service.Update "r1" { sampleA with Status := 2 }
          { store := [sampleA, sampleB], calls := [] } =
        ((service.DemoModel.Update [sampleA, sampleB] "r1"
            [("code", Value.str "A"), ("status", Value.int 2)]).2,
          { store := (service.DemoModel.Update [sampleA, sampleB] "r1"
              [("code", Value.str "A"), ("status", Value.int 2)]).1,
            calls := [] ++ [Call.Get "r1",
              Call.Update "r1" [("code", Value.str "A"), ("status", Value.int 2)]] })) ∧
    (sampleA.Code ≠ { sampleA with Code := "B" }.Code ∧
      service.DemoModel.CheckCode [sampleA, sampleB] "B" = (true, none) ∧
      service.Update "r1" { sampleA with Code := "B" }
          { store := [sampleA, sampleB], calls := [] } =
        (some (errors.New "编号已经存在"),
          { store := [sampleA, sampleB],
            calls := [] ++ [Call.Get "r1", Call.CheckCode "B"] })) :=
  ⟨by decide, by decide,
    ⟨rfl,
      (Update_code_check service "r1" { sampleA with Status := 2 } sampleA
        { store := [sampleA, sampleB], calls := [] } (by decide)).1 rfl⟩,
    ⟨by decide, by decide,
      (Update_code_check service "r1" { sampleA with Code := "B" } sampleA
        { store := [sampleA, sampleB], calls := [] } (by decide)).2 (by decide)
        (by decide)⟩⟩

/-- Witness for C10: a `Create` with a free code whose entity carries forged
values in the four stamped attributes. -/
theorem Create_hands_stamped_entity_witness :
    service.DemoModel.CheckCode [sampleA] "B" = (false, none) ∧
    (service.Create "uuid-1" 1700000000
        { sampleB with ID := 77, RecordID := "forged", Created := 1, Deleted := 9 }
        { store := [sampleA], calls := [] }).2.calls =
      [Call.CheckCode "B",
        Call.Create { ID := 0, RecordID := "uuid-1", Code := "B", Status := 1,
                      Creator := "root", Created := 1700000000, Updated := 0,
                      Deleted := 0 }] :=
  ⟨by decide,
    congrArg (fun r => r.2.calls)
      (Create_hands_stamped_entity service "uuid-1" 1700000000
        { sampleB with ID := 77, RecordID := "forged", Created := 1, Deleted := 9 }
        { store := [sampleA], calls := [] } (by decide))⟩

end concrete

/-! ## Further properties of the CRUD service -/

section service_more

open model memstore

/-- C17 (as amended): with `p` the result of persistence `Get`, the service
`Get` issues that one call and returns `util.ErrNotFound` exactly when `p` is
an absent entity without error or `p` itself carries the error
`util.ErrNotFound`; when `p` is an entity without error it returns that entity
unmodified and no error; when `p` carries an error it returns that error and
no entity. -/
theorem Get_result_cases {σ : Type} (a : bll.Demo σ) (recordID : String) (w : World σ) :
    ((a.Get recordID w).1.2 = some util.ErrNotFound ↔
        ((a.DemoModel.Get w.store recordID).1 = none ∧
          (a.DemoModel.Get w.store recordID).2 = none) ∨
        (a.DemoModel.Get w.store recordID).2 = some util.ErrNotFound) ∧
    (∀ item, a.DemoModel.Get w.store recordID = (some item, none) →
        (a.Get recordID w).1 = (some item, none)) ∧
    (∀ e, (a.DemoModel.Get w.store recordID).2 = some e →
        (a.Get recordID w).1 = (none, some e)) ∧
    (a.Get recordID w).2 = { store := w.store, calls := w.calls ++ [Call.Get recordID] } := by
  simp only [bll.Demo.Get, IDemo.callGet]
  rcases hp : a.DemoModel.Get w.store recordID with ⟨item, err⟩
  cases err with
  | some e =>
    refine ⟨?_, ?_, ?_, ?_⟩
    · simp
    · intro item' h
      simp at h
    · intro e' h
      simp at h
      simp [h]
    · simp
  | none =>
    cases item with
    | none =>
      refine ⟨?_, ?_, ?_, ?_⟩
      · simp
      · intro item' h
        simp at h
      · intro e' h
        simp at h
      · simp
    | some it =>
      refine ⟨?_, ?_, ?_, ?_⟩
      · simp
      · intro item' h
        simp at h
        simp [h]
      · intro e' h
        simp at h
      · simp

/-- Counterexample to C17 as stated: a persistence whose `Get` fails with the
error `util.ErrNotFound` did not return "an absent entity without error", yet
the service `Get` returns `util.ErrNotFound`. -/
theorem Get_notfound_not_only_when_absent :
    ((IDemo (fun _ => some util.ErrNotFound)).Get [sampleA] "r1").2 ≠ none ∧
    ((bll.Demo.mk (IDemo (fun _ => some util.ErrNotFound))).Get "r1"
        { store := [sampleA], calls := [] }).1 = (none, some util.ErrNotFound) := by
  decide

/-- Witness for C17: `Get` of a stored record, of an unknown identifier, and
against a persistence that fails. -/
theorem Get_result_cases_witness :
    (service.Get "r1" { store := [sampleA], calls := [] }).1 = (some sampleA, none) ∧
    (service.Get "zz" { store := [sampleA], calls := [] }).1.2 = some util.ErrNotFound ∧
    ((bll.Demo.mk (IDemo (fun _ => some (GoError.external "connection lost")))).Get "r1"
        { store := [sampleA], calls := [] }).1 =
      (none, some (GoError.external "connection lost")) :=
  ⟨(Get_result_cases service "r1" { store := [sampleA], calls := [] }).2.1 sampleA
      (by decide),
    (Get_result_cases service "zz" { store := [sampleA], calls := [] }).1.mpr
      (Or.inl (by decide)),
    (Get_result_cases (bll.Demo.mk (IDemo (fun _ => some (GoError.external "connection lost"))))
      "r1" { store := [sampleA], calls := [] }).2.2.1 (GoError.external "connection lost")
      (by decide)⟩

/-- C18: `UpdateStatus` gates on existence. When the existence check answers
false without error it returns `util.ErrNotFound`, issues the check and no
persistence `Update`, and leaves the store untouched; when it answers true it
issues the check and then exactly one persistence `Update` for that record
identifier whose field-change map is the single binding of `status` to the
given status, and returns that call's result. Applying that map to an entity
changes its status and no other attribute. -/
theorem UpdateStatus_single_field {σ : Type} (a : bll.Demo σ) (recordID : String)
    (status : Int) (w : World σ) :
    (a.DemoModel.Check w.store recordID = (false, none) →
      a.UpdateStatus recordID status w =
        (some util.ErrNotFound,
          { store := w.store, calls := w.calls ++ [Call.Check recordID] })) ∧
    (a.DemoModel.Check w.store recordID = (true, none) →
      a.UpdateStatus recordID status w =
        ((a.DemoModel.Update w.store recordID [("status", Value.int status)]).2,
          { store := (a.DemoModel.Update w.store recordID [("status", Value.int status)]).1,
            calls := w.calls ++ [Call.Check recordID,
              Call.Update recordID [("status", Value.int status)]] })) ∧
    (∀ e : schema.Demo,
      applyFields [("status", Value.int status)] e = { e with Status := status }) := by
  refine ⟨?_, ?_, ?_⟩
  · intro h
    simp [bll.Demo.UpdateStatus, IDemo.callCheck, h]
  · intro h
    simp [bll.Demo.UpdateStatus, IDemo.callCheck, IDemo.callUpdate, h]
  · intro e
    simp [applyFields, setField]

/-- Witness for C18: `UpdateStatus` of an unknown identifier on the empty store,
and of the stored entity's identifier. -/
theorem UpdateStatus_single_field_witness :
    (service.DemoModel.Check [] "r1" = (false, none) ∧
      service.UpdateStatus "r1" 2 { store := [], calls := [] } =
        (some util.ErrNotFound, { store := [], calls := [] ++ [Call.Check "r1"] })) ∧
    (service.DemoModel.Check [sampleA] "r1" = (true, none) ∧
      service.UpdateStatus "r1" 2 { store := [sampleA], calls := [] } =
        ((service.DemoModel.Update [sampleA] "r1" [("status", Value.int 2)]).2,
          { store := (service.DemoModel.Update [sampleA] "r1" [("status", Value.int 2)]).1,
            calls := [] ++ [Call.Check "r1",
              Call.Update "r1" [("status", Value.int 2)]] })) ∧
    (service.UpdateStatus "r1" 2 { store := [sampleA], calls := [] }).2.store =
      [{ sampleA with Status := 2 }] :=
  ⟨⟨by decide,
      (UpdateStatus_single_field service "r1" 2 { store := [], calls := [] }).1 (by decide)⟩,
    ⟨by decide,
      (UpdateStatus_single_field service "r1" 2 { store := [sampleA], calls := [] }).2.1
        (by decide)⟩,
    by decide⟩

end service_more

/-! ## The first segment of a split text -/

section split_lemmas

open strings

/-- The list `l` begins with `sep` exactly when `sep` is a prefix of `l`. -/
theorem strings.startsWith_iff (sep l : List Char) :
    startsWith sep l = true ↔ sep <+: l := by
  induction sep generalizing l with
  | nil => simp [startsWith]
  | cons a sep ih =>
    cases l with
    | nil => simp [startsWith]
    | cons b l =>
      simp only [startsWith, Bool.and_eq_true, beq_iff_eq, ih, List.cons_prefix_cons]

/-- A text beginning with a character other than the first of the separator
does not begin with the separator. -/
theorem strings.startsWith_cons_ne (a c : Char) (sep l : List Char) (h : c ≠ a) :
    startsWith (a :: sep) (c :: l) = false := by
  have : (a == c) = false := by
    simp only [beq_eq_false_iff_ne, ne_eq]
    exact fun hac => h hac.symm
  simp [startsWith, this]

/-- Splitting a text made of a run `m` free of the separator's first character,
the separator, and anything: the first segment is `m`. -/
theorem strings.splitFrom_head_of_append (a : Char) (sep m rest : List Char)
    (hm : a ∉ m) :
    ∃ segs, splitFrom (a :: sep) 0 (m ++ (a :: sep) ++ rest) = m :: segs := by
  induction m with
  | nil =>
    have hs : startsWith (a :: sep) ((a :: sep) ++ rest) = true :=
      (startsWith_iff _ _).mpr (List.prefix_append _ _)
    simp only [List.nil_append]
    simp only [List.cons_append] at hs ⊢
    exact ⟨splitFrom (a :: sep) sep.length (sep ++ rest), by simp [splitFrom, hs]⟩
  | cons c m ih =>
    have hca : c ≠ a := fun h => hm (h ▸ List.mem_cons_self _ _)
    have hm' : a ∉ m := fun h => hm (List.mem_cons_of_mem _ h)
    obtain ⟨segs, hsegs⟩ := ih hm'
    refine ⟨segs, ?_⟩
    simp only [List.cons_append, List.append_assoc] at hsegs ⊢
    simp [splitFrom, startsWith_cons_ne a c sep _ hca, hsegs]

/-- The first segment of a split, for a non-empty separator: it is followed in
the text by the separator, or it is the whole text and the separator occurs
nowhere; and the separator occurs at no position before its end. -/
theorem strings.splitFrom_first_segment (a : Char) (sep l : List Char) :
    ∃ seg segs, splitFrom (a :: sep) 0 l = seg :: segs ∧
      ((∃ rest, l = seg ++ (a :: sep) ++ rest) ∨
        (seg = l ∧ ∀ k, ¬ (a :: sep) <+: l.drop k)) ∧
      ∀ k, k < seg.length → ¬ (a :: sep) <+: l.drop k := by
  induction l with
  | nil =>
    refine ⟨[], [], by simp [splitFrom], Or.inr ⟨rfl, ?_⟩, ?_⟩
    · intro k h
      simp at h
    · intro k hk
      simp at hk
  | cons c cs ih =>
    by_cases hs : startsWith (a :: sep) (c :: cs) = true
    · obtain ⟨rest, hrest⟩ := (startsWith_iff _ _).mp hs
      refine ⟨[], splitFrom (a :: sep) sep.length cs, by simp [splitFrom, hs],
        Or.inl ⟨rest, by simpa using hrest.symm⟩, ?_⟩
      intro k hk
      simp at hk
    · have hs' : startsWith (a :: sep) (c :: cs) = false := by simpa using hs
      have hnot : ¬ (a :: sep) <+: (c :: cs) := fun h => hs ((startsWith_iff _ _).mpr h)
      obtain ⟨seg, segs, hsplit, hshape, hbefore⟩ := ih
      refine ⟨c :: seg, segs, by simp [splitFrom, hs', hsplit], ?_, ?_⟩
      · rcases hshape with ⟨rest, hrest⟩ | ⟨hseg, hnone⟩
        · exact Or.inl ⟨rest, by simp [hrest]⟩
        · refine Or.inr ⟨by rw [hseg], ?_⟩
          intro k
          cases k with
          | zero => simpa using hnot
          | succ k => simpa using hnone k
      · intro k hk
        cases k with
        | zero => simpa using hnot
        | succ k =>
          have : k < seg.length := by simpa using hk
          simpa using hbefore k this

/-- Go `strings.Split(text, ": ")` always has a first segment `seg`: the text is
`seg`, the separator and a rest, or `seg` is the whole text and the separator
occurs nowhere in it; the separator occurs at no position before the end of
`seg`. -/
theorem strings.Split_first_segment (text : String) :
    ∃ seg segs, Split text ": " = seg :: segs ∧
      ((∃ rest, text.toList = seg.toList ++ [':', ' '] ++ rest) ∨
        (seg = text ∧ ∀ k, ¬ [':', ' '] <+: text.toList.drop k)) ∧
      ∀ k, k < seg.length → ¬ [':', ' '] <+: text.toList.drop k := by
  obtain ⟨seg, segs, hsplit, hshape, hbefore⟩ :=
    splitFrom_first_segment ':' [' '] text.toList
  refine ⟨String.mk seg, segs.map String.mk, ?_, ?_, ?_⟩
  · have : (": " : String).toList = [':', ' '] := rfl
    show List.map String.mk (splitFrom (": " : String).toList 0 text.toList) = _
    rw [this, hsplit]
    rfl
  · rcases hshape with ⟨rest, hrest⟩ | ⟨hseg, hnone⟩
    · exact Or.inl ⟨rest, by simpa using hrest⟩
    · refine Or.inr ⟨?_, hnone⟩
      rw [hseg]
      rfl
  · intro k hk
    exact hbefore k (by simpa [String.length] using hk)

/-- The text of a wrapped error splits with the wrapping message first, when the
message has no colon. -/
theorem strings.Split_wrap_head (message cause : String) (hm : ':' ∉ message.toList) :
    ∃ segs, Split (message ++ ": " ++ cause) ": " = message :: segs := by
  obtain ⟨segs, hsegs⟩ := splitFrom_head_of_append ':' [' '] message.toList cause.toList hm
  refine ⟨segs.map String.mk, ?_⟩
  have h1 : (": " : String).toList = [':', ' '] := rfl
  have h2 : (message ++ ": " ++ cause).toList =
      message.toList ++ [':', ' '] ++ cause.toList := by
    simp [String.toList, String.data_append, h1]
  simp only [Split, h1, h2, hsegs, List.map_cons]
  rfl

end split_lemmas

/-! ## The response methods -/

section responses

open context

/-- When serialization succeeds, `ResJSON` returns after storing the buffer
under the response-body key, writing one response with the given status and
aborting; it calls nothing else. -/
theorem context.ResJSON_written (env : Env) (a : Context) (fuel : Nat) (status : Int)
    (v : Payload) (s : GinState) (h : (env.JSONMarshal v).2 = none) :
    a.ResJSON env (fuel + 1) status v s =
      Outcome.done
        { keys := (ContextKey.ResBody, KeyValue.bytes (env.JSONMarshal v).1) :: s.keys,
          events := s.events ++
            [Event.ResJSON status v,
             Event.Data status "application/json; charset=utf-8" (env.JSONMarshal v).1,
             Event.Abort] } := by
  simp [Context.ResJSON, h, GinState.emit, GinState.Set]

/-- C15: `ResSuccess` with a nil payload hands `ResJSON` status 200 and the empty
map `gin.H` in place of nil, so, the serializer writing an empty map as the
empty JSON object, exactly one response is written, with status 200 and that
body (which is not `null`). With a non-nil payload that the serializer turns
into `buf`, exactly one response is written, with status 200 and body `buf`. -/
theorem ResSuccess_nil_is_empty_object (env : Env) (a : Context) (fuel : Nat)
    (s : GinState) :
    (env.JSONMarshal Payload.H = ("\x7b\x7d", none) →
      a.ResSuccess env (fuel + 1) Payload.nil s =
        Outcome.done
          { keys := (ContextKey.ResBody, KeyValue.bytes "\x7b\x7d") :: s.keys,
            events := s.events ++
              [Event.ResJSON 200 Payload.H,
               Event.Data 200 "application/json; charset=utf-8" "\x7b\x7d",
               Event.Abort] } ∧
      ("\x7b\x7d" : String) ≠ "null") ∧
    (∀ (v : Payload) (buf : String), v ≠ Payload.nil → env.JSONMarshal v = (buf, none) →
      a.ResSuccess env (fuel + 1) v s =
        Outcome.done
          { keys := (ContextKey.ResBody, KeyValue.bytes buf) :: s.keys,
            events := s.events ++
              [Event.ResJSON 200 v,
               Event.Data 200 "application/json; charset=utf-8" buf,
               Event.Abort] }) := by
  constructor
  · intro h
    refine ⟨?_, by decide⟩
    have h2 : (env.JSONMarshal Payload.H).2 = none := by rw [h]
    simp only [Context.ResSuccess, if_true]
    rw [ResJSON_written env a fuel 200 Payload.H s h2, h]
  · intro v buf hv h
    have h2 : (env.JSONMarshal v).2 = none := by rw [h]
    simp only [Context.ResSuccess, hv, if_false]
    rw [ResJSON_written env a fuel 200 v s h2, h]

/-- Witness for C15: `ResSuccess` with nil and with a numeric payload, with the
sample serializer. -/
theorem ResSuccess_nil_is_empty_object_witness :
    sampleEnv.JSONMarshal Payload.H = ("\x7b\x7d", none) ∧
    (sampleContext.ResSuccess sampleEnv 1 Payload.nil sampleState =
        Outcome.done
          { keys := (ContextKey.ResBody, KeyValue.bytes "\x7b\x7d") :: sampleState.keys,
            events := sampleState.events ++
              [Event.ResJSON 200 Payload.H,
               Event.Data 200 "application/json; charset=utf-8" "\x7b\x7d",
               Event.Abort] } ∧
      ("\x7b\x7d" : String) ≠ "null") ∧
    Payload.other 3 ≠ Payload.nil ∧
    sampleEnv.JSONMarshal (Payload.other 3) = ("3", none) ∧
    sampleContext.ResSuccess sampleEnv 1 (Payload.other 3) sampleState =
      Outcome.done
        { keys := (ContextKey.ResBody, KeyValue.bytes "3") :: sampleState.keys,
          events := sampleState.events ++
            [Event.ResJSON 200 (Payload.other 3),
             Event.Data 200 "application/json; charset=utf-8" "3",
             Event.Abort] } :=
  ⟨by decide,
    (ResSuccess_nil_is_empty_object sampleEnv sampleContext 0 sampleState).1 (by decide),
    by decide, by decide,
    (ResSuccess_nil_is_empty_object sampleEnv sampleContext 0 sampleState).2
      (Payload.other 3) "3" (by decide) (by decide)⟩

/-- C16: `ResPage` hands `ResJSON` status 200 and the List envelope whose list is
the given items and whose pagination block is the given total with
`GetPageIndex()` and `GetPageSize()` of this request; the serializer turning
that envelope into `buf`, exactly one response is written, with status 200 and
body `buf`. The block's page size is in `[1, 50]` and its page index at
least 1. -/
theorem ResPage_envelope (env : Env) (Uint : String → Nat) (a : Context) (fuel : Nat)
    (total : Int) (v : Payload) (s : GinState) (buf : String)
    (h : env.JSONMarshal
        (Payload.HTTPList v
          (some { Total := total, Current := a.GetPageIndex Uint,
                  PageSize := a.GetPageSize Uint })) = (buf, none)) :
    a.ResPage env Uint (fuel + 1) total v s =
      Outcome.done
        { keys := (ContextKey.ResBody, KeyValue.bytes buf) :: s.keys,
          events := s.events ++
            [Event.ResJSON 200
               (Payload.HTTPList v
                 (some { Total := total, Current := a.GetPageIndex Uint,
                         PageSize := a.GetPageSize Uint })),
             Event.Data 200 "application/json; charset=utf-8" buf,
             Event.Abort] } ∧
    1 ≤ a.GetPageIndex Uint ∧ 1 ≤ a.GetPageSize Uint ∧ a.GetPageSize Uint ≤ 50 := by
  have h2 : (env.JSONMarshal
      (Payload.HTTPList v
        (some { Total := total, Current := a.GetPageIndex Uint,
                PageSize := a.GetPageSize Uint }))).2 = none := by rw [h]
  refine ⟨?_, ?_, ?_, ?_⟩
  · have hne : (Payload.HTTPList v
        (some { Total := total, Current := a.GetPageIndex Uint,
                PageSize := a.GetPageSize Uint })) ≠ Payload.nil := by
      intro hc
      cases hc
    simp only [Context.ResPage, Context.ResSuccess, hne, if_false]
    rw [ResJSON_written env a fuel 200 _ s h2, h]
  · simp only [Context.GetPageIndex]
    split_ifs <;> omega
  · simp only [Context.GetPageSize]
    split_ifs <;> omega
  · simp only [Context.GetPageSize]
    split_ifs <;> omega

/-- Witness for C16: a page of the request `?current=3&pageSize=75` with total
120: the block carries index 3 and size 50. -/
theorem ResPage_envelope_witness :
    sampleEnv.JSONMarshal
        (Payload.HTTPList (Payload.other 3)
          (some { Total := 120, Current := samplePaged.GetPageIndex util.S.Uint,
                  PageSize := samplePaged.GetPageSize util.S.Uint })) =
      ("\x7b\"list\":3,\"pagination\":\x7b\"total\":120,\"current\":3,\"pageSize\":50\x7d\x7d",
        none) ∧
    samplePaged.GetPageIndex util.S.Uint = 3 ∧
    samplePaged.GetPageSize util.S.Uint = 50 ∧
    (samplePaged.ResPage sampleEnv util.S.Uint 1 120 (Payload.other 3) sampleState =
      Outcome.done
        { keys := (ContextKey.ResBody, KeyValue.bytes
            "\x7b\"list\":3,\"pagination\":\x7b\"total\":120,\"current\":3,\"pageSize\":50\x7d\x7d") ::
              sampleState.keys,
          events := sampleState.events ++
            [Event.ResJSON 200
               (Payload.HTTPList (Payload.other 3)
                 (some { Total := 120, Current := samplePaged.GetPageIndex util.S.Uint,
                         PageSize := samplePaged.GetPageSize util.S.Uint })),
             Event.Data 200 "application/json; charset=utf-8"
               "\x7b\"list\":3,\"pagination\":\x7b\"total\":120,\"current\":3,\"pageSize\":50\x7d\x7d",
             Event.Abort] } ∧
    1 ≤ samplePaged.GetPageIndex util.S.Uint ∧ 1 ≤ samplePaged.GetPageSize util.S.Uint ∧
      samplePaged.GetPageSize util.S.Uint ≤ 50) :=
  ⟨by decide, by decide, by decide,
    ResPage_envelope sampleEnv util.S.Uint samplePaged 0 120 (Payload.other 3) sampleState
      "\x7b\"list\":3,\"pagination\":\x7b\"total\":120,\"current\":3,\"pageSize\":50\x7d\x7d"
      (by decide)⟩

/-- With a status in `[400, 500)` and a non-nil error, `ResError` logs one
warning carrying the raw text and the surfaced message, then calls `ResJSON`
with the given status and the Error envelope. -/
theorem context.ResError_client (env : Env) (a : Context) (fuel : Nat) (e : ErrorValue)
    (status : Int) (code : List Int) (s : GinState) (seg : String) (segs : List String)
    (hsplit : strings.Split e.Error ": " = seg :: segs)
    (h4 : 400 ≤ status) (h5 : status < 500) :
    a.ResError env (fuel + 1) (some e) status code s =
      a.ResJSON env fuel status
        (Payload.HTTPError
          { Message := if seg = "" then "请求发生错误" else seg, Code := code.headD 0 })
        (s.emit (Event.Log
          { level := Level.Warn,
            entry := { ctx := a.NewContext s, fields := [("error", FieldValue.text e.Error)] },
            message := "[请求错误] " ++ (if seg = "" then "请求发生错误" else seg) })) := by
  cases code <;> by_cases hseg : seg = "" <;>
    simp [Context.ResError, hsplit, h4, h5, hseg, System, Entry.WithField, Entry.Warnf]

/-- With a status in `[500, 600)` and a non-nil error without a `StackTrace`
method, `ResError` logs one error-level entry whose message ends with the full
text, then calls `ResJSON` with the given status and the Error envelope. -/
theorem context.ResError_server_plain (env : Env) (a : Context) (fuel : Nat)
    (e : ErrorValue) (status : Int) (code : List Int) (s : GinState) (seg : String)
    (segs : List String) (hsplit : strings.Split e.Error ": " = seg :: segs)
    (h5 : 500 ≤ status) (h6 : status < 600) (hst : e.StackTrace = none) :
    a.ResError env (fuel + 1) (some e) status code s =
      a.ResJSON env fuel status
        (Payload.HTTPError
          { Message := if seg = "" then "服务器发生错误" else seg, Code := code.headD 0 })
        (s.emit (Event.Log
          { level := Level.Error,
            entry := { ctx := a.NewContext s, fields := [] },
            message := "[服务器错误] " ++ e.Error })) := by
  have hnot : ¬ status < 500 := by omega
  cases code <;> by_cases hseg : seg = "" <;>
    simp [Context.ResError, hsplit, h5, h6, hnot, hst, hseg, System, Entry.Errorf]

/-- With a status in `[500, 600)` and a non-nil error whose `StackTrace()` has
capacity at least 2, `ResError` logs one error-level entry carrying the top two
frames, whose message ends with the full text, then calls `ResJSON` with the
given status and the Error envelope. -/
theorem context.ResError_server_stack (env : Env) (a : Context) (fuel : Nat)
    (e : ErrorValue) (status : Int) (code : List Int) (s : GinState) (seg : String)
    (segs : List String) (stack : errors.StackTrace)
    (hsplit : strings.Split e.Error ": " = seg :: segs)
    (h5 : 500 ≤ status) (h6 : status < 600) (hst : e.StackTrace = some stack)
    (hcap : 2 ≤ stack.cap) :
    a.ResError env (fuel + 1) (some e) status code s =
      a.ResJSON env fuel status
        (Payload.HTTPError
          { Message := if seg = "" then "服务器发生错误" else seg, Code := code.headD 0 })
        (s.emit (Event.Log
          { level := Level.Error,
            entry := { ctx := a.NewContext s,
                       fields := [("error",
                         FieldValue.frames ((stack.frames ++ stack.spare).take 2))] },
            message := "[服务器错误] " ++ e.Error })) := by
  have hnot : ¬ status < 500 := by omega
  cases code <;> by_cases hseg : seg = "" <;>
    simp [Context.ResError, hsplit, h5, h6, hnot, hst, hcap, hseg, System, Entry.Errorf,
      Entry.WithField, errors.StackTrace.sliceTo]

/-- With a status outside `[400, 600)` and a non-nil error, `ResError` logs
nothing and calls `ResJSON` with the given status and the Error envelope whose
message is the first segment. -/
theorem context.ResError_unclassified (env : Env) (a : Context) (fuel : Nat)
    (e : ErrorValue) (status : Int) (code : List Int) (s : GinState) (seg : String)
    (segs : List String) (hsplit : strings.Split e.Error ": " = seg :: segs)
    (hout : status < 400 ∨ 600 ≤ status) :
    a.ResError env (fuel + 1) (some e) status code s =
      a.ResJSON env fuel status
        (Payload.HTTPError { Message := seg, Code := code.headD 0 }) s := by
  have h1 : ¬ (400 ≤ status ∧ status < 500) := by omega
  have h2 : ¬ (500 ≤ status ∧ status < 600) := by omega
  cases code <;> simp [Context.ResError, hsplit, h1, h2]

/-- With a nil error `ResError` logs nothing and calls `ResJSON` with the given
status and the Error envelope whose message is the default of the status
class. -/
theorem context.ResError_nil (env : Env) (a : Context) (fuel : Nat) (status : Int)
    (code : List Int) (s : GinState) :
    a.ResError env (fuel + 1) none status code s =
      a.ResJSON env fuel status
        (Payload.HTTPError
          { Message :=
              if 400 ≤ status ∧ status < 500 then "请求发生错误"
              else if 500 ≤ status ∧ status < 600 then "服务器发生错误" else "",
            Code := code.headD 0 }) s := by
  by_cases h1 : 400 ≤ status ∧ status < 500
  · cases code <;> simp [Context.ResError, h1]
  · by_cases h2 : 500 ≤ status ∧ status < 600
    · cases code <;> simp [Context.ResError, h1, h2]
    · cases code <;> simp [Context.ResError, h1, h2]

/-- C20, on the code: with a status in `[500, 600)` and a non-nil error whose
`StackTrace()` has capacity below 2 (so 0 or 1 frames for a slice made to its
length), the slice expression `StackTrace()[:2]` is out of range: `ResError`
panics in the state it was called in, before any log entry and without calling
`ResJSON`, so no Error envelope is emitted. -/
theorem ResError_short_stack_panics (env : Env) (a : Context) (fuel : Nat) (e : ErrorValue)
    (status : Int) (code : List Int) (s : GinState) (stack : errors.StackTrace)
    (h5 : 500 ≤ status) (h6 : status < 600) (hst : e.StackTrace = some stack)
    (hcap : stack.cap < 2) :
    a.ResError env (fuel + 1) (some e) status code s = Outcome.panicked s := by
  have hnot : ¬ status < 500 := by omega
  have hcap2 : ¬ 2 ≤ stack.cap := by omega
  simp [Context.ResError, h5, h6, hnot, hst, hcap2, errors.StackTrace.sliceTo]

/-- Witness for C20: status 500 with an error whose stack has one frame. -/
theorem ResError_short_stack_panics_witness :
    (500 : Int) ≤ 500 ∧ (500 : Int) < 600 ∧
    sampleShortStack.StackTrace = some { frames := [7], spare := [] } ∧
    errors.StackTrace.cap { frames := [7], spare := [] } < 2 ∧
    sampleContext.ResError sampleEnv (4 + 1) (some sampleShortStack) 500 [] sampleState =
      Outcome.panicked sampleState :=
  ⟨by decide, by decide, rfl, by decide,
    ResError_short_stack_panics sampleEnv sampleContext 4 sampleShortStack 500 []
      sampleState { frames := [7], spare := [] } (by decide) (by decide) rfl (by decide)⟩

/-- C14, on the code at a failing input: status 503 with a non-nil error whose
`StackTrace()` is the nil slice. `ResError` panics before logging: the log holds
no entry afterwards, where the claim has exactly one error-level entry. -/
theorem ResError_server_error_without_log_entry :
    sampleContext.ResError sampleEnv 5 (some sampleEmptyStack) 503 [] sampleState =
      Outcome.panicked sampleState ∧
    sampleState.logs = [] := by
  decide

/-- C12, on the code at a failing input: two errors whose texts share the first
segment `boom`, with the same status 500 and no code. The one whose stack has
a single frame makes `ResError` panic without any response; the other gets the
Error envelope. The responses differ. -/
theorem ResError_same_segment_different_response :
    (strings.Split sampleShortStack.Error ": ").head? =
      (strings.Split samplePlain.Error ": ").head? ∧
    sampleContext.ResError sampleEnv 5 (some sampleShortStack) 500 [] sampleState =
      Outcome.panicked sampleState ∧
    sampleContext.ResError sampleEnv 5 (some samplePlain) 500 [] sampleState =
      Outcome.done
        { keys := (ContextKey.ResBody,
            KeyValue.bytes "\x7b\"error\":\x7b\"message\":\"boom\",\"code\":0\x7d\x7d") ::
              sampleState.keys,
          events :=
            [Event.Log
               { level := Level.Error,
                 entry := { ctx := { traceID := some "t-1", userID := some "u-1" },
                            fields := [] },
                 message := "[服务器错误] boom: connection refused" },
             Event.ResJSON 500 (Payload.HTTPError { Message := "boom", Code := 0 }),
             Event.Data 500 "application/json; charset=utf-8"
               "\x7b\"error\":\x7b\"message\":\"boom\",\"code\":0\x7d\x7d",
             Event.Abort] } := by
  decide

/-- The method `ResInternalServerError` is `ResError` with status 404 when the
error is the sentinel `util.ErrNotFound`, and `ResError` with status 500 for
every other error and for the nil error, with the same error and code
arguments. -/
theorem context.ResInternalServerError_delegates (env : Env) (a : Context) (fuel : Nat)
    (err : Option ErrorValue) (code : List Int) (s : GinState) :
    (∀ e, err = some e → e.IsErrNotFound = true →
      a.ResInternalServerError env (fuel + 1) err code s =
        a.ResError env fuel err 404 code s) ∧
    ((∀ e, err = some e → e.IsErrNotFound = false) →
      a.ResInternalServerError env (fuel + 1) err code s =
        a.ResError env fuel err 500 code s) := by
  constructor
  · intro e he hnf
    subst he
    simp [Context.ResInternalServerError, hnf]
  · intro h
    cases err with
    | none => simp [Context.ResInternalServerError]
    | some e => simp [Context.ResInternalServerError, h e rfl]

/-- On the sample request, `ResInternalServerError` writes one response with
status 404 for the sentinel, and one with status 500 for an error without a
stack and for the nil error. -/
theorem context.ResInternalServerError_samples :
    (match sampleContext.ResInternalServerError sampleEnv 5 (some sampleNotFound) [7]
        sampleState with
      | Outcome.done s => s.responses
      | _ => []) =
      [(404, "\x7b\"error\":\x7b\"message\":\"资源不存在\",\"code\":7\x7d\x7d")] ∧
    (match sampleContext.ResInternalServerError sampleEnv 5 (some samplePlain) []
        sampleState with
      | Outcome.done s => s.responses
      | _ => []) =
      [(500, "\x7b\"error\":\x7b\"message\":\"boom\",\"code\":0\x7d\x7d")] ∧
    (match sampleContext.ResInternalServerError sampleEnv 5 none [] sampleState with
      | Outcome.done s => s.responses
      | _ => []) =
      [(500, "\x7b\"error\":\x7b\"message\":\"服务器发生错误\",\"code\":0\x7d\x7d")] := by
  decide

/-- C13, on the code: for every non-nil error that is not the sentinel
`util.ErrNotFound` and whose `StackTrace()` has capacity below 2,
`ResInternalServerError` selects status 500 and calls `ResError`, where the
slice expression `StackTrace()[:2]` is out of range: the call panics in the
state it was made in, and no Error envelope is emitted, with status 500 or any
other. -/
theorem ResInternalServerError_short_stack_panics (env : Env) (a : Context) (fuel : Nat)
    (e : ErrorValue) (code : List Int) (s : GinState) (stack : errors.StackTrace)
    (hnf : e.IsErrNotFound = false) (hst : e.StackTrace = some stack)
    (hcap : stack.cap < 2) :
    a.ResInternalServerError env (fuel + 2) (some e) code s = Outcome.panicked s := by
  have hcap2 : ¬ 2 ≤ stack.cap := by omega
  rw [show fuel + 2 = fuel + 1 + 1 from rfl,
    (context.ResInternalServerError_delegates env a (fuel + 1) (some e) code s).2
      (fun e' he => by cases he; exact hnf)]
  simp [Context.ResError, hst, hcap2, errors.StackTrace.sliceTo]

/-- Witness for C13: an error that is not the sentinel, whose stack has one
frame, with code 3. -/
theorem ResInternalServerError_short_stack_panics_witness :
    sampleShortStack.IsErrNotFound = false ∧
    sampleShortStack.StackTrace = some { frames := [7], spare := [] } ∧
    errors.StackTrace.cap { frames := [7], spare := [] } < 2 ∧
    sampleContext.ResInternalServerError sampleEnv (3 + 2) (some sampleShortStack) [3]
        sampleState = Outcome.panicked sampleState :=
  ⟨rfl, rfl, by decide,
    ResInternalServerError_short_stack_panics sampleEnv sampleContext 3 sampleShortStack [3]
      sampleState { frames := [7], spare := [] } rfl rfl (by decide)⟩

/-- The responses written after further effects are the earlier ones followed by
those of the new effects. -/
theorem context.responses_append (keys keys' : List (ContextKey × KeyValue))
    (events more : List Event) :
    GinState.responses { keys := keys', events := events ++ more } =
      GinState.responses { keys := keys, events := events } ++
        GinState.responses { keys := keys, events := more } := by
  simp [GinState.responses, List.filterMap_append]

/-- C19: the recursion `ResJSON -> ResInternalServerError -> ResError -> ResJSON`
ends. For every status and every payload whose serialization fails, given that
serializing the Error envelope with message "JSON序列化发生错误" succeeds, `ResJSON`
returns for every bound of at least 4 nested calls, having entered `ResJSON`
twice (once more after the first entry), logged one error-level entry carrying
the two top frames recorded by `errors.Wrap` and the full text, and written
exactly one response: status 500 and the Error envelope with message
"JSON序列化发生错误" and code 0. For every payload whose serialization succeeds it
returns for every bound of at least 1, having entered `ResJSON` once and
written exactly one response with the given status. -/
theorem ResJSON_recursion_ends (env : Env) (a : Context) (fuel : Nat) (status : Int)
    (v : Payload) (s : GinState) :
    (∀ err, (env.JSONMarshal v).2 = some err →
      (env.JSONMarshal
        (Payload.HTTPError { Message := "JSON序列化发生错误", Code := 0 })).2 = none →
      a.ResJSON env (fuel + 4) status v s =
        Outcome.done
          { keys := (ContextKey.ResBody, KeyValue.bytes
              (env.JSONMarshal
                (Payload.HTTPError { Message := "JSON序列化发生错误", Code := 0 })).1) :: s.keys,
            events := s.events ++
              [Event.ResJSON status v,
               Event.Log
                 { level := Level.Error,
                   entry := { ctx := a.NewContext s,
                              fields := [("error",
                                FieldValue.frames [env.callers.top, env.callers.caller])] },
                   message := "[服务器错误] " ++ ("JSON序列化发生错误" ++ ": " ++ err.Error) },
               Event.ResJSON 500
                 (Payload.HTTPError { Message := "JSON序列化发生错误", Code := 0 }),
               Event.Data 500 "application/json; charset=utf-8"
                 (env.JSONMarshal
                   (Payload.HTTPError { Message := "JSON序列化发生错误", Code := 0 })).1,
               Event.Abort] }) ∧
    ((env.JSONMarshal v).2 = none →
      a.ResJSON env (fuel + 1) status v s =
        Outcome.done
          { keys := (ContextKey.ResBody, KeyValue.bytes (env.JSONMarshal v).1) :: s.keys,
            events := s.events ++
              [Event.ResJSON status v,
               Event.Data status "application/json; charset=utf-8" (env.JSONMarshal v).1,
               Event.Abort] }) := by
  constructor
  · intro err hfail hok
    obtain ⟨segs, hsplit⟩ :=
      strings.Split_wrap_head "JSON序列化发生错误" err.Error (by decide)
    have hstep : a.ResJSON env (fuel + 3 + 1) status v s =
        a.ResInternalServerError env (fuel + 3)
          (some (errors.Wrap err "JSON序列化发生错误" env.callers)) []
          (s.emit (Event.ResJSON status v)) := by
      simp [Context.ResJSON, hfail]
    have hrise : a.ResInternalServerError env (fuel + 2 + 1)
          (some (errors.Wrap err "JSON序列化发生错误" env.callers)) []
          (s.emit (Event.ResJSON status v)) =
        a.ResError env (fuel + 2)
          (some (errors.Wrap err "JSON序列化发生错误" env.callers)) 500 []
          (s.emit (Event.ResJSON status v)) := by
      simp [Context.ResInternalServerError, errors.Wrap]
    have herr := ResError_server_stack env a (fuel + 1)
      (errors.Wrap err "JSON序列化发生错误" env.callers) 500 []
      (s.emit (Event.ResJSON status v)) "JSON序列化发生错误" segs env.callers.StackTrace
      hsplit (by decide) (by decide) rfl
      (by simp [errors.StackTrace.cap, errors.Callers.StackTrace])
    have hmsg : (if ("JSON序列化发生错误" : String) = "" then "服务器发生错误"
        else "JSON序列化发生错误") = "JSON序列化发生错误" := by decide
    rw [hmsg] at herr
    rw [show fuel + 4 = fuel + 3 + 1 from rfl, hstep,
      show fuel + 3 = fuel + 2 + 1 from rfl, hrise,
      show fuel + 2 = fuel + 1 + 1 from rfl, herr]
    simp only [List.headD_nil]
    rw [ResJSON_written env a fuel 500 _ _ hok]
    simp [GinState.emit, errors.Wrap, errors.Callers.StackTrace, Context.NewContext,
      Context.GetTraceID, Context.GetUserID, GinState.GetString]
  · intro hok
    exact ResJSON_written env a fuel status v s hok

/-- Witness for C19: a payload JSON cannot represent, and one it can. -/
theorem ResJSON_recursion_ends_witness :
    (sampleEnv.JSONMarshal (Payload.other 0)).2 =
      some { Error := "json: unsupported type: chan int", IsErrNotFound := false,
             StackTrace := none } ∧
    (sampleEnv.JSONMarshal
      (Payload.HTTPError { Message := "JSON序列化发生错误", Code := 0 })).2 = none ∧
    (match sampleContext.ResJSON sampleEnv (0 + 4) 200 (Payload.other 0) sampleState with
      | Outcome.done s => s.responses
      | _ => []) =
      [(500, "\x7b\"error\":\x7b\"message\":\"JSON序列化发生错误\",\"code\":0\x7d\x7d")] ∧
    sampleContext.ResJSON sampleEnv 3 200 (Payload.other 0) sampleState =
      Outcome.outOfFuel ∧
    (sampleEnv.JSONMarshal (Payload.other 3)).2 = none ∧
    sampleContext.ResJSON sampleEnv (0 + 1) 201 (Payload.other 3) sampleState =
      Outcome.done
        { keys := (ContextKey.ResBody,
            KeyValue.bytes (sampleEnv.JSONMarshal (Payload.other 3)).1) :: sampleState.keys,
          events := sampleState.events ++
            [Event.ResJSON 201 (Payload.other 3),
             Event.Data 201 "application/json; charset=utf-8"
               (sampleEnv.JSONMarshal (Payload.other 3)).1,
             Event.Abort] } :=
  ⟨by decide, by decide,
    by
      rw [(ResJSON_recursion_ends sampleEnv sampleContext 0 200 (Payload.other 0)
        sampleState).1
          { Error := "json: unsupported type: chan int", IsErrNotFound := false,
            StackTrace := none } (by decide) (by decide)]
      decide,
    by decide, by decide,
    (ResJSON_recursion_ends sampleEnv sampleContext 0 201 (Payload.other 3) sampleState).2
      (by decide)⟩

/-- The first segment of a split text does not contain the separator. -/
theorem strings.Split_first_segment_free (text seg : String) (segs : List String)
    (h : strings.Split text ": " = seg :: segs) : ¬ [':', ' '] <:+: seg.toList := by
  obtain ⟨seg', segs', hsplit, hshape, hbefore⟩ := strings.Split_first_segment text
  rw [h] at hsplit
  obtain ⟨hseg, -⟩ := List.cons.inj hsplit
  subst hseg
  have htail : ∃ tail, text.toList = seg.toList ++ tail := by
    rcases hshape with ⟨rest, hrest⟩ | ⟨hwhole, -⟩
    · exact ⟨[':', ' '] ++ rest, by simpa using hrest⟩
    · exact ⟨[], by rw [hwhole]; simp⟩
  obtain ⟨tail, htail⟩ := htail
  rintro ⟨p, q, hpq⟩
  have hlen : p.length < seg.length := by
    have h1 : seg.length = seg.toList.length := rfl
    have h2 := congrArg List.length hpq
    simp only [List.length_append, List.length_cons, List.length_nil] at h2
    omega
  apply hbefore p.length hlen
  rw [htail, ← hpq]
  refine ⟨q ++ tail, ?_⟩
  simp [List.drop_append_eq_append_drop, List.append_assoc]

/-- Counterexample to C11 as stated: with status 400 and a non-nil error whose
text is `: timeout`, the first segment of the text is empty, yet the message of
the emitted Error envelope is "请求发生错误". -/
theorem ResError_message_not_first_segment :
    strings.Split sampleEmptySegment.Error ": " = ["", "timeout"] ∧
    sampleContext.ResError sampleEnv 2 (some sampleEmptySegment) 400 [] sampleState =
      Outcome.done
        { keys := (ContextKey.ResBody,
            KeyValue.bytes "\x7b\"error\":\x7b\"message\":\"请求发生错误\",\"code\":0\x7d\x7d") ::
              sampleState.keys,
          events :=
            [Event.Log
               { level := Level.Warn,
                 entry := { ctx := { traceID := some "t-1", userID := some "u-1" },
                            fields := [("error", FieldValue.text ": timeout")] },
                 message := "[请求错误] 请求发生错误" },
             Event.ResJSON 400 (Payload.HTTPError { Message := "请求发生错误", Code := 0 }),
             Event.Data 400 "application/json; charset=utf-8"
               "\x7b\"error\":\x7b\"message\":\"请求发生错误\",\"code\":0\x7d\x7d",
             Event.Abort] } := by
  decide

/-- C11 (as amended): for every non-nil error and every status, leaving aside
an error whose `StackTrace()` has capacity below 2 when the status is in
`[500, 600)`: the text has a first segment `seg` (the text up to, not
including, the first occurrence of `: `, or the whole text when `: ` does not
occur); the serializer turning the Error envelope into `buf`, `ResError`
returns for every bound of at least 2 nested calls, having handed `ResJSON` the
given status and the Error envelope, and having written exactly one response,
with the given status and body `buf`. The envelope's message is `seg` when
`seg` is not empty; when it is empty the message is "请求发生错误" for a status
in `[400, 500)`, "服务器发生错误" for a status in `[500, 600)`, and empty for any
other status. Its code is the first code argument, or 0 when there is none. -/
theorem ResError_envelope (env : Env) (a : Context) (fuel : Nat) (e : ErrorValue)
    (status : Int) (code : List Int) (s : GinState)
    (hstack : 500 ≤ status → status < 600 →
      ∀ stack, e.StackTrace = some stack → 2 ≤ stack.cap) :
    ∃ seg : String,
      (((∃ rest, e.Error.toList = seg.toList ++ [':', ' '] ++ rest) ∨
          (seg = e.Error ∧ ∀ k, ¬ [':', ' '] <+: e.Error.toList.drop k)) ∧
        ∀ k, k < seg.length → ¬ [':', ' '] <+: e.Error.toList.drop k) ∧
      ∀ buf,
        env.JSONMarshal
          (Payload.HTTPError
            { Message :=
                if seg = "" then
                  (if 400 ≤ status ∧ status < 500 then "请求发生错误"
                   else if 500 ≤ status ∧ status < 600 then "服务器发生错误" else "")
                else seg,
              Code := code.headD 0 }) = (buf, none) →
        ∃ s', a.ResError env (fuel + 2) (some e) status code s = Outcome.done s' ∧
          s'.responses = s.responses ++ [(status, buf)] ∧
          Event.ResJSON status
            (Payload.HTTPError
              { Message :=
                  if seg = "" then
                    (if 400 ≤ status ∧ status < 500 then "请求发生错误"
                     else if 500 ≤ status ∧ status < 600 then "服务器发生错误" else "")
                  else seg,
                Code := code.headD 0 }) ∈ s'.events := by
  obtain ⟨seg, segs, hsplit, hshape, hbefore⟩ := strings.Split_first_segment e.Error
  refine ⟨seg, ⟨hshape, hbefore⟩, ?_⟩
  intro buf hm
  by_cases h4 : 400 ≤ status ∧ status < 500
  · have hmsg : (if seg = "" then
          (if 400 ≤ status ∧ status < 500 then "请求发生错误"
           else if 500 ≤ status ∧ status < 600 then "服务器发生错误" else "")
        else seg) = (if seg = "" then "请求发生错误" else seg) := by
      simp [h4]
    rw [hmsg] at hm ⊢
    have h2 : (env.JSONMarshal (Payload.HTTPError
        { Message := if seg = "" then "请求发生错误" else seg, Code := code.headD 0 })).2 =
        none := by rw [hm]
    rw [show fuel + 2 = fuel + 1 + 1 from rfl,
      ResError_client env a (fuel + 1) e status code s seg segs hsplit h4.1 h4.2,
      ResJSON_written env a fuel status _ _ h2, hm]
    refine ⟨_, rfl, ?_, ?_⟩
    · simp [GinState.responses, GinState.emit, List.filterMap_append]
    · simp [GinState.emit]
  · by_cases h5 : 500 ≤ status ∧ status < 600
    · have hmsg : (if seg = "" then
            (if 400 ≤ status ∧ status < 500 then "请求发生错误"
             else if 500 ≤ status ∧ status < 600 then "服务器发生错误" else "")
          else seg) = (if seg = "" then "服务器发生错误" else seg) := by
        simp [h4, h5]
      rw [hmsg] at hm ⊢
      have h2 : (env.JSONMarshal (Payload.HTTPError
          { Message := if seg = "" then "服务器发生错误" else seg,
            Code := code.headD 0 })).2 = none := by rw [hm]
      cases hst : e.StackTrace with
      | none =>
        rw [show fuel + 2 = fuel + 1 + 1 from rfl,
          ResError_server_plain env a (fuel + 1) e status code s seg segs hsplit h5.1 h5.2
            hst,
          ResJSON_written env a fuel status _ _ h2, hm]
        refine ⟨_, rfl, ?_, ?_⟩
        · simp [GinState.responses, GinState.emit, List.filterMap_append]
        · simp [GinState.emit]
      | some stack =>
        rw [show fuel + 2 = fuel + 1 + 1 from rfl,
          ResError_server_stack env a (fuel + 1) e status code s seg segs stack hsplit
            h5.1 h5.2 hst (hstack h5.1 h5.2 stack hst),
          ResJSON_written env a fuel status _ _ h2, hm]
        refine ⟨_, rfl, ?_, ?_⟩
        · simp [GinState.responses, GinState.emit, List.filterMap_append]
        · simp [GinState.emit]
    · have hmsg : (if seg = "" then
            (if 400 ≤ status ∧ status < 500 then "请求发生错误"
             else if 500 ≤ status ∧ status < 600 then "服务器发生错误" else "")
          else seg) = seg := by
        by_cases hseg : seg = ""
        · simp [h4, h5, hseg]
        · simp [hseg]
      rw [hmsg] at hm ⊢
      have h2 : (env.JSONMarshal (Payload.HTTPError
          { Message := seg, Code := code.headD 0 })).2 = none := by rw [hm]
      have hout : status < 400 ∨ 600 ≤ status := by omega
      rw [show fuel + 2 = fuel + 1 + 1 from rfl,
        ResError_unclassified env a (fuel + 1) e status code s seg segs hsplit hout,
        ResJSON_written env a fuel status _ _ h2, hm]
      refine ⟨_, rfl, ?_, ?_⟩
      · simp [GinState.responses, GinState.emit, List.filterMap_append]
      · simp [GinState.emit]

/-- Witness for C11: status 500, code 7, and the not-found sentinel, whose stack
has three frames; the response carries its text, which has no separator. -/
theorem ResError_envelope_witness :
    ((500 : Int) ≤ 500 → (500 : Int) < 600 →
      ∀ stack, sampleNotFound.StackTrace = some stack → 2 ≤ stack.cap) ∧
    (match sampleContext.ResError sampleEnv (0 + 2) (some sampleNotFound) 500 [7]
        sampleState with
      | Outcome.done s => s.responses
      | _ => []) =
      [(500, "\x7b\"error\":\x7b\"message\":\"资源不存在\",\"code\":7\x7d\x7d")] ∧
    (∃ seg : String,
      (((∃ rest, sampleNotFound.Error.toList = seg.toList ++ [':', ' '] ++ rest) ∨
          (seg = sampleNotFound.Error ∧
            ∀ k, ¬ [':', ' '] <+: sampleNotFound.Error.toList.drop k)) ∧
        ∀ k, k < seg.length → ¬ [':', ' '] <+: sampleNotFound.Error.toList.drop k) ∧
      ∀ buf,
        sampleEnv.JSONMarshal
          (Payload.HTTPError
            { Message :=
                if seg = "" then
                  (if (400 : Int) ≤ 500 ∧ (500 : Int) < 500 then "请求发生错误"
                   else if (500 : Int) ≤ 500 ∧ (500 : Int) < 600 then "服务器发生错误" else "")
                else seg,
              Code := [(7 : Int)].headD 0 }) = (buf, none) →
        ∃ s', sampleContext.ResError sampleEnv (0 + 2) (some sampleNotFound) 500 [7]
            sampleState = Outcome.done s' ∧
          s'.responses = sampleState.responses ++ [(500, buf)] ∧
          Event.ResJSON 500
            (Payload.HTTPError
              { Message :=
                  if seg = "" then
                    (if (400 : Int) ≤ 500 ∧ (500 : Int) < 500 then "请求发生错误"
                     else if (500 : Int) ≤ 500 ∧ (500 : Int) < 600 then "服务器发生错误"
                     else "")
                  else seg,
                Code := [(7 : Int)].headD 0 }) ∈ s'.events) :=
  ⟨fun _ _ stack h => by
      have h' : stack = { frames := [1, 2, 3], spare := [] } := (Option.some.inj h).symm
      subst h'
      decide,
    by decide,
    ResError_envelope sampleEnv sampleContext 0 sampleNotFound 500 [7] sampleState
      (fun _ _ stack h => by
        have h' : stack = { frames := [1, 2, 3], spare := [] } := (Option.some.inj h).symm
        subst h'
        decide)⟩

end responses
